import Mathlib

/-!
Verification of the Joule sous-vide BLE protocol codec and coordinator
(`custom_components/joule_sous_vide/joule_proto.py` and `coordinator.py`).

Shallow embedding conventions:
* Python `bytes` values are `List Nat`, each element meant to lie in `[0, 256)`.
* Python `int` is `Nat` (all protocol integers here are unsigned).
* IEEE-754 single-precision floats that only travel through
  `struct.pack("<f", x)` / `struct.unpack("<f", ...)` are represented by
  their 32-bit pattern as a `Nat`; the codec never does float arithmetic,
  it only moves the 4 bytes around, so this is bit-exact.
* Python exceptions become `Except` values: `JouleProtoError` is the
  dedicated protocol error, and `PyError` additionally covers the
  `ValueError` that `IntEnum(value)` raises on an unknown enum value.
-/

namespace Joule

/-- Wire type constants from `joule_proto.py`. -/
def WIRETYPE_VARINT : Nat := 0

def WIRETYPE_FIXED64 : Nat := 1

def WIRETYPE_LENGTH_DELIMITED : Nat := 2

def WIRETYPE_FIXED32 : Nat := 5

def FIELD_START_PROGRAM_REQUEST : Nat := 50

def FIELD_STOP_CIRCULATOR_REQUEST : Nat := 60

def FIELD_BEGIN_LIVE_FEED_REQUEST : Nat := 70

def FIELD_CIRCULATOR_DATA_POINT : Nat := 90

/-- The messages carried by `JouleProtoError` exceptions, one constructor per
`raise` site in `joule_proto.py`. -/
inductive JouleProtoError where
  | truncatedVarint
  | varintTooLong
  | truncatedFixed32
  | truncatedFixed64
  | truncatedLengthDelimited
  | unsupportedWireType (wt : Nat)
  deriving DecidableEq, Repr

/-- A Python exception escaping the decoding layer: either a `JouleProtoError`
or the `ValueError` raised by `ErrorState(value)` / `ProgramStep(value)` on an
out-of-range enum value. -/
inductive PyError where
  | proto (e : JouleProtoError)
  | valueError
  deriving DecidableEq, Repr

/-- `encode_varint` from `joule_proto.py`: base-128 groups, low 7 bits first,
continuation bit `0x80` on all but the last byte. -/
def encode_varint (value : Nat) : List Nat :=
  if value > 0x7F then
    ((value &&& 0x7F) ||| 0x80) :: encode_varint (value >>> 7)
  else
    [value &&& 0x7F]
termination_by value
decreasing_by
  simp only [Nat.shiftRight_eq_div_pow]
  omega

/-- The loop body of `decode_varint`: `result` and `shift` are the accumulator
variables of the Python `while True` loop; the loop raises `Truncated varint`
as soon as `offset` runs past the end of the buffer. -/
def decode_varint_loop (data : List Nat) (offset result shift : Nat) :
    Except JouleProtoError (Nat × Nat) :=
  if h : offset < data.length then
    if data[offset] &&& 0x80 = 0 then
      .ok (result ||| ((data[offset] &&& 0x7F) <<< shift), offset + 1)
    else if shift + 7 ≥ 64 then
      .error .varintTooLong
    else
      decode_varint_loop data (offset + 1)
        (result ||| ((data[offset] &&& 0x7F) <<< shift)) (shift + 7)
  else
    .error .truncatedVarint
termination_by data.length - offset
decreasing_by omega

/-- `decode_varint` from `joule_proto.py`. Returns `(value, new_offset)`. -/
def decode_varint (data : List Nat) (offset : Nat) :
    Except JouleProtoError (Nat × Nat) :=
  decode_varint_loop data offset 0 0

theorem and_0x7F_eq_mod (v : Nat) : v &&& 0x7F = v % 128 := by
  have := Nat.and_pow_two_sub_one_eq_mod v 7
  norm_num at this
  exact this

theorem encode_varint_small {v : Nat} (h : v ≤ 0x7F) : encode_varint v = [v] := by
  rw [encode_varint, if_neg (by omega)]
  rw [and_0x7F_eq_mod, Nat.mod_eq_of_lt (by omega)]

theorem encode_varint_large {v : Nat} (h : 0x7F < v) :
    encode_varint v = ((v &&& 0x7F) ||| 0x80) :: encode_varint (v >>> 7) := by
  rw [encode_varint, if_pos h]

theorem encode_varint_ne_nil (v : Nat) : encode_varint v ≠ [] := by
  rw [encode_varint]
  split <;> simp

/-- Length of the encoding: at most `k + 1` bytes when `v < 2 ^ (7 * (k + 1))`. -/
theorem encode_varint_length_le (k : Nat) :
    ∀ v : Nat, v < 2 ^ (7 * (k + 1)) → (encode_varint v).length ≤ k + 1 := by
  induction k with
  | zero =>
    intro v hv
    rw [encode_varint_small (by omega)]
    simp
  | succ k ih =>
    intro v hv
    by_cases h : v ≤ 0x7F
    · rw [encode_varint_small h]; simp
    · rw [encode_varint_large (by omega)]
      simp only [List.length_cons]
      have hlt : v >>> 7 < 2 ^ (7 * (k + 1)) := by
        rw [Nat.shiftRight_eq_div_pow]
        have h1 : 7 * (k + 1 + 1) = 7 * (k + 1) + 7 := by ring
        rw [h1, pow_add] at hv
        exact Nat.div_lt_of_lt_mul (by omega)
      have := ih (v >>> 7) hlt
      omega

theorem lor_shiftLeft_eq_add {r x s : Nat} (h : r < 2 ^ s) :
    r ||| (x <<< s) = r + x * 2 ^ s := by
  rw [Nat.shiftLeft_eq, Nat.lor_comm, Nat.mul_comm, ← Nat.mul_add_lt_is_or h x]
  omega

theorem and_0x80_eq_zero {b : Nat} (h : b < 128) : b &&& 0x80 = 0 := by
  have h7 : b.testBit 7 = false := Nat.testBit_eq_false_of_lt (by norm_num [h])
  have := Nat.and_two_pow b 7
  norm_num [h7] at this
  exact this

theorem or_0x80_and_0x80 (x : Nat) : (x ||| 0x80) &&& 0x80 = 0x80 := by
  have h7 : (x ||| 0x80).testBit 7 = true := by
    rw [Nat.testBit_or]
    have : (0x80 : Nat).testBit 7 = true := by decide
    simp [this]
  have := Nat.and_two_pow (x ||| 0x80) 7
  norm_num [h7] at this
  exact this

theorem or_0x80_and_0x7F (x : Nat) : (x ||| 0x80) &&& 0x7F = x &&& 0x7F := by
  apply Nat.eq_of_testBit_eq
  intro i
  simp only [Nat.testBit_and, Nat.testBit_or]
  by_cases hi : i < 7
  · have : (0x80 : Nat).testBit i = false := by
      interval_cases i <;> decide
    simp [this]
  · have : (0x7F : Nat).testBit i = false := by
      apply Nat.testBit_eq_false_of_lt
      calc (0x7F : Nat) < 2 ^ 7 := by norm_num
        _ ≤ 2 ^ i := Nat.pow_le_pow_right (by norm_num) (by omega)
    simp [this]

theorem byte_and_0x7F (v : Nat) : ((v &&& 0x7F) ||| 0x80) &&& 0x7F = v % 128 := by
  rw [or_0x80_and_0x7F, Nat.land_assoc]
  have h : (0x7F : Nat) &&& 0x7F = 0x7F := by decide
  rw [h, and_0x7F_eq_mod]

theorem drop_getElem_head {data tl : List Nat} {offset b : Nat}
    (h : data.drop offset = b :: tl) (hlt : offset < data.length) :
    data[offset] = b := by
  have h0 : (data.drop offset)[0]? = some b := by
    rw [h]
    simp
  rw [List.getElem?_drop] at h0
  simpa [List.getElem?_eq_getElem hlt] using h0

/-- Main varint round-trip invariant: if the bytes of `encode_varint v` sit at
`offset` in `data`, the decode loop consumes exactly them and adds `v * 2 ^
shift` to the accumulator. -/
theorem decode_varint_loop_encode :
    ∀ v {data rest : List Nat} {offset r s : Nat},
      data.drop offset = encode_varint v ++ rest →
      v * 2 ^ s < 2 ^ 64 → r < 2 ^ s →
      decode_varint_loop data offset r s =
        .ok (r + v * 2 ^ s, offset + (encode_varint v).length) := by
  intro v
  induction v using Nat.strong_induction_on with
  | _ v ih =>
    intro data rest offset r s hdrop hv hr
    by_cases hsmall : v ≤ 0x7F
    · rw [encode_varint_small hsmall] at hdrop ⊢
      have hlt : offset < data.length := by
        have := congrArg List.length hdrop
        simp [List.length_drop] at this
        omega
      have hbyte : data[offset] = v := drop_getElem_head hdrop hlt
      rw [decode_varint_loop, dif_pos hlt]
      simp only [hbyte]
      rw [if_pos (and_0x80_eq_zero (by omega))]
      rw [and_0x7F_eq_mod, Nat.mod_eq_of_lt (by omega), lor_shiftLeft_eq_add hr]
      simp
    · rw [encode_varint_large (by omega)] at hdrop ⊢
      have hlt : offset < data.length := by
        have := congrArg List.length hdrop
        simp [List.length_drop] at this
        omega
      have hbyte : data[offset] = (v &&& 0x7F) ||| 0x80 :=
        drop_getElem_head hdrop hlt
      have hs7 : s + 7 < 64 := by
        have h1 : (2 : Nat) ^ (s + 7) ≤ v * 2 ^ s := by
          rw [pow_add]
          have : (2 : Nat) ^ 7 ≤ v := by norm_num; omega
          calc 2 ^ s * 2 ^ 7 = 2 ^ 7 * 2 ^ s := by ring
            _ ≤ v * 2 ^ s := by
              exact Nat.mul_le_mul_right _ this
        have h2 : (2 : Nat) ^ (s + 7) < 2 ^ 64 := lt_of_le_of_lt h1 hv
        exact (Nat.pow_lt_pow_iff_right (by norm_num)).mp h2
      rw [decode_varint_loop, dif_pos hlt]
      simp only [hbyte]
      rw [if_neg (by rw [or_0x80_and_0x80]; norm_num)]
      rw [if_neg (by omega)]
      rw [byte_and_0x7F]
      have hdrop' : data.drop (offset + 1) = encode_varint (v >>> 7) ++ rest := by
        have := congrArg (List.drop 1) hdrop
        rw [List.drop_drop] at this
        simpa using this
      have hvs : v >>> 7 < v := by
        rw [Nat.shiftRight_eq_div_pow]
        exact Nat.div_lt_self (by omega) (by norm_num)
      have hv' : (v >>> 7) * 2 ^ (s + 7) < 2 ^ 64 := by
        rw [Nat.shiftRight_eq_div_pow, pow_add]
        calc v / 2 ^ 7 * (2 ^ s * 2 ^ 7) = v / 2 ^ 7 * 2 ^ 7 * 2 ^ s := by ring
          _ ≤ v * 2 ^ s := Nat.mul_le_mul_right _ (Nat.div_mul_le_self v _)
          _ < 2 ^ 64 := hv
      have hr' : r ||| ((v % 128) <<< s) < 2 ^ (s + 7) := by
        rw [lor_shiftLeft_eq_add hr, pow_add]
        have hm : v % 128 < 128 := Nat.mod_lt _ (by norm_num)
        have h128 : (2 : Nat) ^ 7 = 128 := by norm_num
        rw [h128]
        calc r + v % 128 * 2 ^ s < 2 ^ s + v % 128 * 2 ^ s := by omega
          _ ≤ 2 ^ s + 127 * 2 ^ s := by
            have : v % 128 * 2 ^ s ≤ 127 * 2 ^ s :=
              Nat.mul_le_mul_right _ (by omega)
            omega
          _ = 2 ^ s * 128 := by ring
      rw [ih (v >>> 7) hvs hdrop' hv' hr']
      rw [lor_shiftLeft_eq_add hr]
      have hval : r + v % 128 * 2 ^ s + v >>> 7 * 2 ^ (s + 7) = r + v * 2 ^ s := by
        rw [Nat.shiftRight_eq_div_pow, pow_add]
        have h128 : (2 : Nat) ^ 7 = 128 := by norm_num
        rw [h128]
        have h1 : v % 128 + 128 * (v / 128) = v := by omega
        calc r + v % 128 * 2 ^ s + v / 128 * (2 ^ s * 128)
            = r + (v % 128 + 128 * (v / 128)) * 2 ^ s := by ring
          _ = r + v * 2 ^ s := by rw [h1]
      simp only [List.length_cons, Except.ok.injEq, Prod.mk.injEq]
      exact ⟨hval, by omega⟩

theorem and_0x80_of_ge {b : Nat} (h1 : 128 ≤ b) (h2 : b < 256) :
    b &&& 0x80 = 0x80 := by
  have h7 : b.testBit 7 = true := by
    rw [Nat.testBit_to_div_mod]
    norm_num
    omega
  have := Nat.and_two_pow b 7
  norm_num [h7] at this
  exact this

/-- Reading only continuation bytes until the end of the buffer, with at most
9 continuation steps available before the shift guard, fails with
`Truncated varint`. -/
theorem decode_varint_loop_truncated (data : List Nat) :
    ∀ n offset r s, data.length - offset ≤ n →
      (∀ i (h : i < data.length), offset ≤ i →
        128 ≤ data[i] ∧ data[i] < 256) →
      s + 7 * (data.length - offset) ≤ 63 →
      decode_varint_loop data offset r s = .error .truncatedVarint := by
  intro n
  induction n with
  | zero =>
    intro offset r s hn _ _
    rw [decode_varint_loop, dif_neg (by omega)]
  | succ n ih =>
    intro offset r s hn hcont hsh
    by_cases hlt : offset < data.length
    · have hb := hcont offset hlt (le_refl _)
      rw [decode_varint_loop, dif_pos hlt]
      rw [if_neg (by rw [and_0x80_of_ge hb.1 hb.2]; norm_num)]
      rw [if_neg (by omega)]
      exact ih (offset + 1) _ _ (by omega)
        (fun i h hi => hcont i h (by omega)) (by omega)
    · rw [decode_varint_loop, dif_neg hlt]

/-- Ten consecutive in-bounds continuation bytes make the accumulated shift
reach 64 bits: `Varint too long`. -/
theorem decode_varint_loop_tooLong (data : List Nat) :
    ∀ k offset r s,
      (∀ i (h : i < data.length), offset ≤ i → i ≤ offset + k →
        128 ≤ data[i] ∧ data[i] < 256) →
      offset + k < data.length →
      57 ≤ s + 7 * k →
      decode_varint_loop data offset r s = .error .varintTooLong := by
  intro k
  induction k with
  | zero =>
    intro offset r s hcont hin hsh
    have hlt : offset < data.length := by omega
    have hb := hcont offset hlt (le_refl _) (by omega)
    rw [decode_varint_loop, dif_pos hlt]
    rw [if_neg (by rw [and_0x80_of_ge hb.1 hb.2]; norm_num)]
    rw [if_pos (by omega)]
  | succ k ih =>
    intro offset r s hcont hin hsh
    have hlt : offset < data.length := by omega
    have hb := hcont offset hlt (le_refl _) (by omega)
    rw [decode_varint_loop, dif_pos hlt]
    rw [if_neg (by rw [and_0x80_of_ge hb.1 hb.2]; norm_num)]
    by_cases hguard : s + 7 ≥ 64
    · rw [if_pos hguard]
    · rw [if_neg hguard]
      exact ih (offset + 1) _ _
        (fun i h hi hik => hcont i h (by omega) (by omega)) (by omega) (by omega)

/-- C1: `decode_varint ∘ encode_varint` is the identity on `[0, 2^64)` and the
encoding fits in the decoder's 10-byte budget. -/
theorem varint_roundtrip (v : Nat) (hv : v < 2 ^ 64) :
    decode_varint (encode_varint v) 0 = .ok (v, (encode_varint v).length) ∧
    (encode_varint v).length ≤ 10 := by
  constructor
  · have h := @decode_varint_loop_encode v (encode_varint v) [] 0 0 0
      (by simp) (by simpa using hv) (by norm_num)
    simpa [decode_varint] using h
  · exact encode_varint_length_le 9 v (lt_of_lt_of_le hv (by norm_num))

/-- Witness for C1 at the concrete input 300. -/
theorem varint_roundtrip_witness :
    (300 : Nat) < 2 ^ 64 ∧
      (decode_varint (encode_varint 300) 0 =
          .ok (300, (encode_varint 300).length) ∧
        (encode_varint 300).length ≤ 10) :=
  ⟨by norm_num, varint_roundtrip 300 (by norm_num)⟩

/-- A successful `decode_varint_loop` strictly advances the offset and stays
within the buffer (needed for termination of the field scanner). -/
theorem decode_varint_loop_offset_lt :
    ∀ n (data : List Nat) offset r s v o', data.length - offset ≤ n →
      decode_varint_loop data offset r s = .ok (v, o') →
      offset < o' ∧ o' ≤ data.length := by
  intro n
  induction n with
  | zero =>
    intro data offset r s v o' hn h
    rw [decode_varint_loop, dif_neg (by omega)] at h
    exact absurd h (by simp)
  | succ n ih =>
    intro data offset r s v o' hn h
    by_cases hlt : offset < data.length
    · rw [decode_varint_loop, dif_pos hlt] at h
      split at h
      · simp only [Except.ok.injEq, Prod.mk.injEq] at h
        omega
      · split at h
        · exact absurd h (by simp)
        · have := ih data (offset + 1) _ _ v o' (by omega) h
          omega
    · rw [decode_varint_loop, dif_neg hlt] at h
      exact absurd h (by simp)

theorem decode_varint_offset_lt {data : List Nat} {offset v o' : Nat}
    (h : decode_varint data offset = .ok (v, o')) :
    offset < o' ∧ o' ≤ data.length :=
  decode_varint_loop_offset_lt (data.length - offset) data offset 0 0 v o'
    (le_refl _) h

/-- `encode_tag` from `joule_proto.py`. -/
def encode_tag (field_number wire_type : Nat) : List Nat :=
  encode_varint ((field_number <<< 3) ||| wire_type)

/-- A decoded wire value: an `int` for varint fields, raw bytes for fixed32,
fixed64 and length-delimited fields. -/
inductive RawValue where
  | vint (n : Nat)
  | raw (bs : List Nat)
  deriving DecidableEq, Repr

/-- A `(field_number, wire_type, value)` tuple as produced by `decode_fields`. -/
abbrev RawField := Nat × Nat × RawValue

/-- Python slice `data[a:b]` (for `a ≤ b`). -/
def pySlice (data : List Nat) (a b : Nat) : List Nat :=
  (data.drop a).take (b - a)

/-- `encode_field_varint` from `joule_proto.py` (tag + varint value). -/
def encode_field_varint (field_number value : Nat) : List Nat :=
  encode_tag field_number WIRETYPE_VARINT ++ encode_varint value

/-- Little-endian 4-byte encoding: `struct.pack("<I", value)` (and
`struct.pack("<f", x)` applied to the 32-bit pattern of `x`). The Python call
raises for `value ≥ 2^32`; theorems that rely on this encoding carry that
bound as a hypothesis. -/
def packLE4 (value : Nat) : List Nat :=
  [value % 256, (value >>> 8) % 256, (value >>> 16) % 256, (value >>> 24) % 256]

/-- `struct.unpack("<I", b)[0]` for a 4-byte buffer (and `struct.unpack("<f",
b)` read back as the 32-bit pattern). -/
def unpackLE4 (bs : List Nat) : Nat :=
  match bs with
  | [b0, b1, b2, b3] => b0 ||| (b1 <<< 8) ||| (b2 <<< 16) ||| (b3 <<< 24)
  | _ => 0

/-- `encode_field_float` from `joule_proto.py`; the float argument is
represented by its IEEE-754 bit pattern. -/
def encode_field_float (field_number bits : Nat) : List Nat :=
  encode_tag field_number WIRETYPE_FIXED32 ++ packLE4 bits

/-- `encode_field_fixed32` from `joule_proto.py`. -/
def encode_field_fixed32 (field_number value : Nat) : List Nat :=
  encode_tag field_number WIRETYPE_FIXED32 ++ packLE4 value

/-- `encode_field_bytes` from `joule_proto.py` (tag + length + payload). -/
def encode_field_bytes (field_number : Nat) (value : List Nat) : List Nat :=
  encode_tag field_number WIRETYPE_LENGTH_DELIMITED
    ++ encode_varint value.length ++ value

/-- The scanning loop of `decode_fields`, at a given `offset`.  Mirrors the
Python `while offset < len(data)` loop; the fields parsed from `offset`
onwards are returned (the Python version appends to an accumulator list,
which builds the same list in the same order). -/
def decode_fields_from (data : List Nat) (offset : Nat) :
    Except JouleProtoError (List RawField) :=
  if offset < data.length then
    match h1 : decode_varint data offset with
    | .error e => .error e
    | .ok (tag, o1) =>
      if tag &&& 0x07 = WIRETYPE_VARINT then
        match h2 : decode_varint data o1 with
        | .error e => .error e
        | .ok (value, o2) =>
          (decode_fields_from data o2).map
            (fun rest => (tag >>> 3, tag &&& 0x07, .vint value) :: rest)
      else if tag &&& 0x07 = WIRETYPE_FIXED32 then
        if o1 + 4 > data.length then .error .truncatedFixed32
        else
          (decode_fields_from data (o1 + 4)).map
            (fun rest =>
              (tag >>> 3, tag &&& 0x07, .raw (pySlice data o1 (o1 + 4))) :: rest)
      else if tag &&& 0x07 = WIRETYPE_FIXED64 then
        if o1 + 8 > data.length then .error .truncatedFixed64
        else
          (decode_fields_from data (o1 + 8)).map
            (fun rest =>
              (tag >>> 3, tag &&& 0x07, .raw (pySlice data o1 (o1 + 8))) :: rest)
      else if tag &&& 0x07 = WIRETYPE_LENGTH_DELIMITED then
        match h2 : decode_varint data o1 with
        | .error e => .error e
        | .ok (length, o2) =>
          if o2 + length > data.length then .error .truncatedLengthDelimited
          else
            (decode_fields_from data (o2 + length)).map
              (fun rest =>
                (tag >>> 3, tag &&& 0x07, .raw (pySlice data o2 (o2 + length)))
                  :: rest)
      else
        .error (.unsupportedWireType (tag &&& 0x07))
  else
    .ok []
termination_by data.length - offset
decreasing_by
  all_goals
    first
      | (have ha := decode_varint_offset_lt h1
         have hb := decode_varint_offset_lt h2
         omega)
      | (have ha := decode_varint_offset_lt h1
         omega)

/-- `decode_fields` from `joule_proto.py`. -/
def decode_fields (data : List Nat) : Except JouleProtoError (List RawField) :=
  decode_fields_from data 0

/-- The byte encoding of a single raw field, per wire type (the inverse image
used to state round-trip theorems about `decode_fields`). -/
def encodeRawField (fld : RawField) : List Nat :=
  match fld with
  | (f, 0, .vint n) => encode_tag f 0 ++ encode_varint n
  | (f, 1, .raw bs) => encode_tag f 1 ++ bs
  | (f, 2, .raw bs) => encode_tag f 2 ++ encode_varint bs.length ++ bs
  | (f, 5, .raw bs) => encode_tag f 5 ++ bs
  | _ => []

def encodeRawFields : List RawField → List Nat
  | [] => []
  | fld :: rest => encodeRawField fld ++ encodeRawFields rest

/-- Well-formedness of a raw field: a supported wire type, a value of the
matching shape and size, and values small enough for the decoder's 64-bit
varint guard. -/
inductive WFRawField : RawField → Prop where
  | vint {f n : Nat} : f < 2 ^ 61 → n < 2 ^ 64 → WFRawField (f, 0, .vint n)
  | fixed64 {f : Nat} {bs : List Nat} :
      f < 2 ^ 61 → bs.length = 8 → WFRawField (f, 1, .raw bs)
  | len {f : Nat} {bs : List Nat} :
      f < 2 ^ 61 → bs.length < 2 ^ 64 → WFRawField (f, 2, .raw bs)
  | fixed32 {f : Nat} {bs : List Nat} :
      f < 2 ^ 61 → bs.length = 4 → WFRawField (f, 5, .raw bs)

theorem tag_eq_add {f wt : Nat} (h : wt < 8) : (f <<< 3) ||| wt = 8 * f + wt := by
  rw [Nat.shiftLeft_eq, Nat.mul_comm]
  have := Nat.mul_add_lt_is_or (i := 3) (by norm_num [h] : wt < 2 ^ 3) f
  norm_num at this ⊢
  omega

theorem tag_and_7 {f wt : Nat} (h : wt < 8) : ((f <<< 3) ||| wt) &&& 7 = wt := by
  rw [tag_eq_add h]
  have := Nat.and_pow_two_sub_one_eq_mod (8 * f + wt) 3
  norm_num at this
  rw [this]
  omega

theorem tag_shiftRight_3 {f wt : Nat} (h : wt < 8) :
    ((f <<< 3) ||| wt) >>> 3 = f := by
  rw [tag_eq_add h, Nat.shiftRight_eq_div_pow]
  norm_num
  omega

theorem drop_append_of_drop {data pre post : List Nat} {offset : Nat}
    (h : data.drop offset = pre ++ post) :
    data.drop (offset + pre.length) = post := by
  have h2 := congrArg (List.drop pre.length) h
  rw [List.drop_drop, List.drop_left] at h2
  exact h2

/-- Decoding a well-formed varint at a known position. -/
theorem decode_varint_at {data rest : List Nat} {offset v : Nat}
    (hv : v < 2 ^ 64) (hdrop : data.drop offset = encode_varint v ++ rest) :
    decode_varint data offset = .ok (v, offset + (encode_varint v).length) := by
  have h := @decode_varint_loop_encode v _ _ _ 0 0 hdrop
    (by simpa using hv) (by norm_num)
  simpa [decode_varint] using h

theorem drop_length_ge {data pre post : List Nat} {offset : Nat}
    (hoff : offset ≤ data.length) (h : data.drop offset = pre ++ post) :
    offset + pre.length ≤ data.length := by
  have := congrArg List.length h
  simp [List.length_drop, List.length_append] at this
  omega

/-- Decoding the tag varint at a known position. -/
theorem decode_tag_at {data rest : List Nat} {f wt offset : Nat}
    (hf : f < 2 ^ 61) (hwt : wt < 8)
    (hdrop : data.drop offset = encode_tag f wt ++ rest) :
    decode_varint data offset =
      .ok ((f <<< 3) ||| wt, offset + (encode_tag f wt).length) := by
  have hv : (f <<< 3) ||| wt < 2 ^ 64 := by
    rw [tag_eq_add hwt]
    omega
  exact decode_varint_at hv hdrop

theorem take_of_drop_append {data bs rest : List Nat} {offset n : Nat}
    (h : data.drop offset = bs ++ rest) (hn : bs.length = n) :
    pySlice data offset (offset + n) = bs := by
  rw [pySlice, Nat.add_sub_cancel_left, h, ← hn, List.take_left]

theorem decode_fields_from_cons_varint {data rest : List Nat} {f n offset : Nat}
    (hf : f < 2 ^ 61) (hn : n < 2 ^ 64)
    (hdrop : data.drop offset = encode_tag f 0 ++ encode_varint n ++ rest) :
    decode_fields_from data offset =
      (decode_fields_from data
          (offset + (encode_tag f 0).length + (encode_varint n).length)).map
        (fun flds => (f, 0, .vint n) :: flds) := by
  have htag : decode_varint data offset =
      .ok ((f <<< 3) ||| 0, offset + (encode_tag f 0).length) :=
    decode_tag_at hf (by norm_num) (by rw [hdrop, List.append_assoc])
  have hlt : offset < data.length := by
    have := congrArg List.length hdrop
    simp [List.length_drop, List.length_append] at this
    have h1 : (encode_tag f 0).length ≠ 0 := by
      simp [encode_tag, encode_varint_ne_nil]
    omega
  have hdrop1 : data.drop (offset + (encode_tag f 0).length) =
      encode_varint n ++ rest :=
    drop_append_of_drop (by rw [hdrop, List.append_assoc])
  have hval : decode_varint data (offset + (encode_tag f 0).length) =
      .ok (n, offset + (encode_tag f 0).length + (encode_varint n).length) :=
    decode_varint_at hn hdrop1
  rw [decode_fields_from, if_pos hlt]
  split
  · rename_i e heq
    rw [htag] at heq
    simp at heq
  · rename_i tag o1 heq
    rw [htag] at heq
    simp only [Except.ok.injEq, Prod.mk.injEq] at heq
    obtain ⟨h1, h2⟩ := heq
    subst h1
    subst h2
    rw [tag_and_7 (by norm_num)]
    rw [if_pos (show (0 : Nat) = WIRETYPE_VARINT by rfl)]
    split
    · rename_i e heq2
      rw [hval] at heq2
      simp at heq2
    · rename_i value o2 heq2
      rw [hval] at heq2
      simp only [Except.ok.injEq, Prod.mk.injEq] at heq2
      obtain ⟨h3, h4⟩ := heq2
      subst h3
      subst h4
      rw [tag_shiftRight_3 (by norm_num)]

theorem decode_fields_from_cons_fixed32 {data bs rest : List Nat}
    {f offset : Nat} (hf : f < 2 ^ 61) (hbs : bs.length = 4)
    (hdrop : data.drop offset = encode_tag f 5 ++ bs ++ rest) :
    decode_fields_from data offset =
      (decode_fields_from data (offset + (encode_tag f 5).length + 4)).map
        (fun flds => (f, 5, .raw bs) :: flds) := by
  have htag : decode_varint data offset =
      .ok ((f <<< 3) ||| 5, offset + (encode_tag f 5).length) :=
    decode_tag_at hf (by norm_num) (by rw [hdrop, List.append_assoc])
  have hlt : offset < data.length := by
    have := congrArg List.length hdrop
    simp [List.length_drop, List.length_append] at this
    have h1 : (encode_tag f 5).length ≠ 0 := by
      simp [encode_tag, encode_varint_ne_nil]
    omega
  have hdrop1 : data.drop (offset + (encode_tag f 5).length) = bs ++ rest :=
    drop_append_of_drop (by rw [hdrop, List.append_assoc])
  have hle : offset + (encode_tag f 5).length ≤ data.length :=
    (decode_varint_offset_lt htag).2
  have hbound : offset + (encode_tag f 5).length + 4 ≤ data.length := by
    have := drop_length_ge hle hdrop1
    omega
  have hslice : pySlice data (offset + (encode_tag f 5).length)
      (offset + (encode_tag f 5).length + 4) = bs :=
    take_of_drop_append hdrop1 hbs
  rw [decode_fields_from, if_pos hlt]
  split
  · rename_i e heq
    rw [htag] at heq
    simp at heq
  · rename_i tag o1 heq
    rw [htag] at heq
    simp only [Except.ok.injEq, Prod.mk.injEq] at heq
    obtain ⟨h1, h2⟩ := heq
    subst h1
    subst h2
    rw [tag_and_7 (by norm_num)]
    rw [if_neg (show ¬(5 : Nat) = WIRETYPE_VARINT by decide)]
    rw [if_pos (show (5 : Nat) = WIRETYPE_FIXED32 by rfl)]
    rw [if_neg (by omega)]
    rw [tag_shiftRight_3 (by norm_num), hslice]

theorem decode_fields_from_cons_fixed64 {data bs rest : List Nat}
    {f offset : Nat} (hf : f < 2 ^ 61) (hbs : bs.length = 8)
    (hdrop : data.drop offset = encode_tag f 1 ++ bs ++ rest) :
    decode_fields_from data offset =
      (decode_fields_from data (offset + (encode_tag f 1).length + 8)).map
        (fun flds => (f, 1, .raw bs) :: flds) := by
  have htag : decode_varint data offset =
      .ok ((f <<< 3) ||| 1, offset + (encode_tag f 1).length) :=
    decode_tag_at hf (by norm_num) (by rw [hdrop, List.append_assoc])
  have hlt : offset < data.length := by
    have := congrArg List.length hdrop
    simp [List.length_drop, List.length_append] at this
    have h1 : (encode_tag f 1).length ≠ 0 := by
      simp [encode_tag, encode_varint_ne_nil]
    omega
  have hdrop1 : data.drop (offset + (encode_tag f 1).length) = bs ++ rest :=
    drop_append_of_drop (by rw [hdrop, List.append_assoc])
  have hle : offset + (encode_tag f 1).length ≤ data.length :=
    (decode_varint_offset_lt htag).2
  have hbound : offset + (encode_tag f 1).length + 8 ≤ data.length := by
    have := drop_length_ge hle hdrop1
    omega
  have hslice : pySlice data (offset + (encode_tag f 1).length)
      (offset + (encode_tag f 1).length + 8) = bs :=
    take_of_drop_append hdrop1 hbs
  rw [decode_fields_from, if_pos hlt]
  split
  · rename_i e heq
    rw [htag] at heq
    simp at heq
  · rename_i tag o1 heq
    rw [htag] at heq
    simp only [Except.ok.injEq, Prod.mk.injEq] at heq
    obtain ⟨h1, h2⟩ := heq
    subst h1
    subst h2
    rw [tag_and_7 (by norm_num)]
    rw [if_neg (show ¬(1 : Nat) = WIRETYPE_VARINT by decide)]
    rw [if_neg (show ¬(1 : Nat) = WIRETYPE_FIXED32 by decide)]
    rw [if_pos (show (1 : Nat) = WIRETYPE_FIXED64 by rfl)]
    rw [if_neg (by omega)]
    rw [tag_shiftRight_3 (by norm_num), hslice]

theorem decode_fields_from_cons_len {data bs rest : List Nat}
    {f offset : Nat} (hf : f < 2 ^ 61) (hlen : bs.length < 2 ^ 64)
    (hdrop : data.drop offset =
      encode_tag f 2 ++ encode_varint bs.length ++ bs ++ rest) :
    decode_fields_from data offset =
      (decode_fields_from data
          (offset + (encode_tag f 2).length + (encode_varint bs.length).length
            + bs.length)).map
        (fun flds => (f, 2, .raw bs) :: flds) := by
  have htag : decode_varint data offset =
      .ok ((f <<< 3) ||| 2, offset + (encode_tag f 2).length) :=
    decode_tag_at hf (by norm_num)
      (by rw [hdrop, List.append_assoc, List.append_assoc])
  have hlt : offset < data.length := by
    have := congrArg List.length hdrop
    simp [List.length_drop, List.length_append] at this
    have h1 : (encode_tag f 2).length ≠ 0 := by
      simp [encode_tag, encode_varint_ne_nil]
    omega
  have hdrop1 : data.drop (offset + (encode_tag f 2).length) =
      encode_varint bs.length ++ (bs ++ rest) :=
    drop_append_of_drop
      (by rw [hdrop, List.append_assoc, List.append_assoc])
  have hval : decode_varint data (offset + (encode_tag f 2).length) =
      .ok (bs.length, offset + (encode_tag f 2).length
        + (encode_varint bs.length).length) :=
    decode_varint_at hlen hdrop1
  have hdrop2 : data.drop (offset + (encode_tag f 2).length
      + (encode_varint bs.length).length) = bs ++ rest :=
    drop_append_of_drop hdrop1
  have hle : offset + (encode_tag f 2).length
      + (encode_varint bs.length).length ≤ data.length :=
    (decode_varint_offset_lt hval).2
  have hbound : offset + (encode_tag f 2).length
      + (encode_varint bs.length).length + bs.length ≤ data.length := by
    have := drop_length_ge hle hdrop2
    omega
  have hslice : pySlice data
      (offset + (encode_tag f 2).length + (encode_varint bs.length).length)
      (offset + (encode_tag f 2).length + (encode_varint bs.length).length
        + bs.length) = bs :=
    take_of_drop_append hdrop2 rfl
  rw [decode_fields_from, if_pos hlt]
  split
  · rename_i e heq
    rw [htag] at heq
    simp at heq
  · rename_i tag o1 heq
    rw [htag] at heq
    simp only [Except.ok.injEq, Prod.mk.injEq] at heq
    obtain ⟨h1, h2⟩ := heq
    subst h1
    subst h2
    rw [tag_and_7 (by norm_num)]
    rw [if_neg (show ¬(2 : Nat) = WIRETYPE_VARINT by decide)]
    rw [if_neg (show ¬(2 : Nat) = WIRETYPE_FIXED32 by decide)]
    rw [if_neg (show ¬(2 : Nat) = WIRETYPE_FIXED64 by decide)]
    rw [if_pos (show (2 : Nat) = WIRETYPE_LENGTH_DELIMITED by rfl)]
    split
    · rename_i e heq2
      rw [hval] at heq2
      simp at heq2
    · rename_i value o2 heq2
      rw [hval] at heq2
      simp only [Except.ok.injEq, Prod.mk.injEq] at heq2
      obtain ⟨h3, h4⟩ := heq2
      subst h3
      subst h4
      rw [if_neg (by omega)]
      rw [tag_shiftRight_3 (by norm_num), hslice]

/-- The scanner stops cleanly at the end of the buffer. -/
theorem decode_fields_from_nil {data : List Nat} {offset : Nat}
    (h : data.length ≤ offset) : decode_fields_from data offset = .ok [] := by
  rw [decode_fields_from, if_neg (by omega)]

/-- One well-formed encoded field at the head of the remaining buffer is
parsed and prepended. -/
theorem decode_fields_from_cons {data rest : List Nat} {offset : Nat}
    {fld : RawField} (hwf : WFRawField fld)
    (hdrop : data.drop offset = encodeRawField fld ++ rest) :
    decode_fields_from data offset =
      (decode_fields_from data (offset + (encodeRawField fld).length)).map
        (fun flds => fld :: flds) := by
  cases hwf with
  | vint hf hn =>
    rw [encodeRawField] at hdrop
    have h := decode_fields_from_cons_varint hf hn hdrop
    simpa [encodeRawField, List.length_append, Nat.add_assoc] using h
  | fixed64 hf hbs =>
    rw [encodeRawField] at hdrop
    have h := decode_fields_from_cons_fixed64 hf hbs hdrop
    simpa [encodeRawField, List.length_append, Nat.add_assoc, hbs] using h
  | len hf hbs =>
    rw [encodeRawField] at hdrop
    have h := decode_fields_from_cons_len hf hbs hdrop
    simpa [encodeRawField, List.length_append, Nat.add_assoc] using h
  | fixed32 hf hbs =>
    rw [encodeRawField] at hdrop
    have h := decode_fields_from_cons_fixed32 hf hbs hdrop
    simpa [encodeRawField, List.length_append, Nat.add_assoc, hbs] using h

/-- Scanning a buffer that is exactly a concatenation of well-formed encoded
fields returns those fields, in order. -/
theorem decode_fields_from_encoded :
    ∀ (flds : List RawField) (data : List Nat) (offset : Nat),
      (∀ fld ∈ flds, WFRawField fld) →
      data.drop offset = encodeRawFields flds →
      decode_fields_from data offset = .ok flds := by
  intro flds
  induction flds with
  | nil =>
    intro data offset _ hdrop
    have h0 : (data.drop offset).length = 0 := by
      rw [hdrop]
      rfl
    rw [List.length_drop] at h0
    exact decode_fields_from_nil (by omega)
  | cons fld tl ih =>
    intro data offset hwf hdrop
    rw [encodeRawFields] at hdrop
    rw [decode_fields_from_cons (hwf fld (by simp)) hdrop]
    rw [ih data (offset + (encodeRawField fld).length)
      (fun g hg => hwf g (by simp [hg])) (drop_append_of_drop hdrop)]
    rfl

/-- `decode_fields` on an exact encoding of well-formed fields. -/
theorem decode_fields_encoded {flds : List RawField}
    (hwf : ∀ fld ∈ flds, WFRawField fld) :
    decode_fields (encodeRawFields flds) = .ok flds :=
  decode_fields_from_encoded flds (encodeRawFields flds) 0 hwf rfl

/-- `ProgramType` from `joule_proto.py` (`IntEnum`: MANUAL = 0, AUTOMATIC = 1). -/
inductive ProgramType where
  | manual
  | automatic
  deriving DecidableEq, Repr

def ProgramType.toNat : ProgramType → Nat
  | .manual => 0
  | .automatic => 1

/-- `ProgramStep` from `joule_proto.py` (`IntEnum`, values 0-5). -/
inductive ProgramStep where
  | unknown
  | preHeat
  | waitForFood
  | cook
  | waitForRemoveFood
  | error
  deriving DecidableEq, Repr

/-- `ProgramStep(value)`: `none` models the `ValueError` Python raises on an
out-of-range value. -/
def ProgramStep.ofNat? : Nat → Option ProgramStep
  | 0 => some .unknown
  | 1 => some .preHeat
  | 2 => some .waitForFood
  | 3 => some .cook
  | 4 => some .waitForRemoveFood
  | 5 => some .error
  | _ => none

/-- `ErrorState` from `joule_proto.py` (`IntEnum`, values 0-2). -/
inductive ErrorState where
  | noError
  | softError
  | hardError
  deriving DecidableEq, Repr

/-- `ErrorState(value)`: `none` models the `ValueError` on an out-of-range
value. -/
def ErrorState.ofNat? : Nat → Option ErrorState
  | 0 => some .noError
  | 1 => some .softError
  | 2 => some .hardError
  | _ => none

/-- `CirculatorProgram` dataclass; `set_point` holds the IEEE-754 bit pattern
of the Python float. -/
structure CirculatorProgram where
  set_point : Nat
  cook_time : Nat := 0
  program_type : ProgramType := .manual
  deriving DecidableEq, Repr

structure StartProgramRequest where
  circulator_program : CirculatorProgram
  deriving DecidableEq, Repr

/-- `StopCirculatorRequest` dataclass (empty body). -/
structure StopCirculatorRequest where
  deriving DecidableEq, Repr

structure BeginLiveFeedRequest where
  feed_id : Nat := 1
  deriving DecidableEq, Repr

/-- `CirculatorDataPoint` dataclass; `bath_temp` holds the IEEE-754 bit
pattern of the Python float (`0.0` has pattern 0). -/
structure CirculatorDataPoint where
  feed_id : Nat := 0
  sequence_number : Nat := 0
  timestamp : Nat := 0
  error_state : ErrorState := .noError
  bath_temp : Nat := 0
  program_step : ProgramStep := .unknown
  time_remaining : Nat := 0
  deriving DecidableEq, Repr

/-- `StreamMessage` dataclass; the Python field `end` is called `endFlag`
here because `end` is a Lean keyword. -/
structure StreamMessage where
  handle : Nat := 0
  endFlag : Bool := false
  sender_address : List Nat := []
  recipient_address : List Nat := []
  start_program_request : Option StartProgramRequest := none
  stop_circulator_request : Option StopCirculatorRequest := none
  begin_live_feed_request : Option BeginLiveFeedRequest := none
  circulator_data_point : Option CirculatorDataPoint := none
  deriving DecidableEq, Repr

/-- `encode_circulator_program` from `joule_proto.py`: field 2 only when
`cook_time > 0`, field 5 only when the program type is not MANUAL. -/
def encode_circulator_program (program : CirculatorProgram) : List Nat :=
  encode_field_float 1 program.set_point
    ++ (if program.cook_time > 0 then
          encode_field_varint 2 program.cook_time
        else [])
    ++ (if program.program_type ≠ .manual then
          encode_field_varint 5 program.program_type.toNat
        else [])

def encode_start_program_request (request : StartProgramRequest) : List Nat :=
  encode_field_bytes 1 (encode_circulator_program request.circulator_program)

def encode_stop_circulator_request (_request : StopCirculatorRequest) :
    List Nat :=
  []

def encode_begin_live_feed_request (request : BeginLiveFeedRequest) :
    List Nat :=
  encode_field_varint 1 request.feed_id

/-- `encode_stream_message` from `joule_proto.py`: handle, end flag, sender,
recipient, then the oneof chosen by the Python `if`/`elif` chain (start >
stop > live-feed). -/
def encode_stream_message (message : StreamMessage) : List Nat :=
  encode_field_fixed32 1 message.handle
    ++ (if message.endFlag then encode_field_varint 4 1 else [])
    ++ (if message.sender_address ≠ [] then
          encode_field_bytes 5 message.sender_address
        else [])
    ++ (if message.recipient_address ≠ [] then
          encode_field_bytes 6 message.recipient_address
        else [])
    ++ (match message.start_program_request, message.stop_circulator_request,
          message.begin_live_feed_request with
        | some r, _, _ =>
          encode_field_bytes FIELD_START_PROGRAM_REQUEST
            (encode_start_program_request r)
        | none, some r, _ =>
          encode_field_bytes FIELD_STOP_CIRCULATOR_REQUEST
            (encode_stop_circulator_request r)
        | none, none, some r =>
          encode_field_bytes FIELD_BEGIN_LIVE_FEED_REQUEST
            (encode_begin_live_feed_request r)
        | none, none, none => [])

/-- One iteration of the `for` loop of `decode_circulator_data_point`: known
`(field_number, wire_type)` pairs update the data point, everything else is
silently ignored.  Field 4 and field 11 go through the `IntEnum` constructor,
which raises `ValueError` on unknown values. -/
def decode_data_point_field (point : CirculatorDataPoint) (fld : RawField) :
    Except PyError CirculatorDataPoint :=
  match fld with
  | (1, 0, .vint v) => .ok { point with feed_id := v }
  | (2, 0, .vint v) => .ok { point with sequence_number := v }
  | (3, 0, .vint v) => .ok { point with timestamp := v }
  | (4, 0, .vint v) =>
    match ErrorState.ofNat? v with
    | some e => .ok { point with error_state := e }
    | none => .error .valueError
  | (10, 5, .raw bs) => .ok { point with bath_temp := unpackLE4 bs }
  | (11, 0, .vint v) =>
    match ProgramStep.ofNat? v with
    | some s => .ok { point with program_step := s }
    | none => .error .valueError
  | (12, 0, .vint v) => .ok { point with time_remaining := v }
  | _ => .ok point

def decode_data_point_fields (point : CirculatorDataPoint) :
    List RawField → Except PyError CirculatorDataPoint
  | [] => .ok point
  | fld :: rest =>
    match decode_data_point_field point fld with
    | .error e => .error e
    | .ok p => decode_data_point_fields p rest

/-- `decode_circulator_data_point` from `joule_proto.py`. -/
def decode_circulator_data_point (data : List Nat) :
    Except PyError CirculatorDataPoint :=
  match decode_fields data with
  | .error e => .error (.proto e)
  | .ok flds => decode_data_point_fields {} flds

/-- One iteration of the `for` loop of `decode_stream_message`.  Field 90 is
`FIELD_CIRCULATOR_DATA_POINT`; other oneof fields are silently ignored. -/
def decode_stream_field (message : StreamMessage) (fld : RawField) :
    Except PyError StreamMessage :=
  match fld with
  | (1, 5, .raw bs) => .ok { message with handle := unpackLE4 bs }
  | (4, 0, .vint v) => .ok { message with endFlag := v ≠ 0 }
  | (5, 2, .raw bs) => .ok { message with sender_address := bs }
  | (6, 2, .raw bs) => .ok { message with recipient_address := bs }
  | (90, 2, .raw bs) =>
    match decode_circulator_data_point bs with
    | .error e => .error e
    | .ok p => .ok { message with circulator_data_point := some p }
  | _ => .ok message

def decode_stream_fields (message : StreamMessage) :
    List RawField → Except PyError StreamMessage
  | [] => .ok message
  | fld :: rest =>
    match decode_stream_field message fld with
    | .error e => .error e
    | .ok m => decode_stream_fields m rest

/-- `decode_stream_message` from `joule_proto.py`. -/
def decode_stream_message (data : List Nat) : Except PyError StreamMessage :=
  match decode_fields data with
  | .error e => .error (.proto e)
  | .ok flds => decode_stream_fields {} flds

def DEFAULT_ADDRESS : List Nat := [0, 0, 0, 0, 0, 0]

/-- `build_start_cook_message` from `joule_proto.py`; `set_point_celsius` is
the IEEE-754 bit pattern of the Python float argument. -/
def build_start_cook_message (set_point_celsius cook_time_seconds : Nat)
    (sender : List Nat := DEFAULT_ADDRESS)
    (recipient : List Nat := DEFAULT_ADDRESS) : List Nat :=
  encode_stream_message
    { sender_address := sender
      recipient_address := recipient
      start_program_request := some
        { circulator_program :=
            { set_point := set_point_celsius
              cook_time := cook_time_seconds
              program_type := .manual } } }

def build_stop_cook_message (sender : List Nat := DEFAULT_ADDRESS)
    (recipient : List Nat := DEFAULT_ADDRESS) : List Nat :=
  encode_stream_message
    { sender_address := sender
      recipient_address := recipient
      stop_circulator_request := some {} }

def build_live_feed_message (feed_id : Nat := 1)
    (sender : List Nat := DEFAULT_ADDRESS)
    (recipient : List Nat := DEFAULT_ADDRESS) : List Nat :=
  encode_stream_message
    { sender_address := sender
      recipient_address := recipient
      begin_live_feed_request := some { feed_id := feed_id } }

/-- `parse_notification` from `joule_proto.py`: the `except (JouleProtoError,
Exception)` clause catches every exception, so the function is total and
returns `none` on any decode failure. -/
def parse_notification (data : List Nat) : Option CirculatorDataPoint :=
  match decode_stream_message data with
  | .ok msg => msg.circulator_data_point
  | .error _ => none

/-!
Coordinator (`coordinator.py`).  The BLE transport is an external
collaborator: each call into `JouleBLEAPI` is abstracted by an
`Except JouleBLEError Unit` outcome parameter, and the notification callback
(`_on_notification`, which stores the parsed data point) by an
`Option CirculatorDataPoint` parameter (`none` = no valid notification before
the timeout).  Python floats that the coordinator merely stores and passes
through (`target_temperature`, `cook_time_minutes`) are modeled as rationals;
the only arithmetic on them (`int(cook_time_minutes * 60)`) feeds the encoded
payload, not the coordinator state.
-/

/-- An opaque id standing for a `JouleBLEError` exception message. -/
abbrev JouleBLEError := Nat

/-- The `UpdateFailed` exception raised by `_async_update_data`. -/
inductive UpdateFailed where
  | bleFailed (err : JouleBLEError)
  deriving DecidableEq, Repr

/-- The `HomeAssistantError` exceptions raised by the control actions. -/
inductive HomeAssistantError where
  | startCookingFailed (err : JouleBLEError)
  | stopCookingFailed (err : JouleBLEError)
  deriving DecidableEq, Repr

/-- The mutable state of `JouleCoordinator`, with the `__init__` defaults
(`DEFAULT_TARGET_TEMPERATURE = 60.0` °C, `DEFAULT_COOK_TIME_MINUTES = 0.0`,
`DEFAULT_TEMPERATURE_UNIT = "°F"`). -/
structure CoordState where
  is_cooking : Bool := false
  target_temperature : ℚ := 60
  cook_time_minutes : ℚ := 0
  temperature_unit : String := "°F"
  latest_data_point : Option CirculatorDataPoint := none
  subscribed : Bool := false
  deriving DecidableEq, Repr

/-- The dictionary returned by `_async_update_data`;
`current_temperature` holds the IEEE-754 bit pattern of the reported float
(the placeholder `0.0` has pattern 0). -/
structure Snapshot where
  current_temperature : Nat
  is_cooking : Bool
  target_temperature : ℚ
  cook_time_minutes : ℚ
  temperature_unit : String
  deriving DecidableEq, Repr

/-- `coordinator.py` lines 102-104: latest bath temperature, or `0.0` if no
telemetry was ever received. -/
def current_temperature_of (latest : Option CirculatorDataPoint) : Nat :=
  match latest with
  | none => 0
  | some dp => dp.bath_temp

/-- `coordinator.py` lines 106-114: `is_cooking` derived from the latest
`program_step`; no telemetry or an ERROR step keeps the previous value. -/
def update_is_cooking (latest : Option CirculatorDataPoint) (prior : Bool) :
    Bool :=
  match latest with
  | none => prior
  | some dp =>
    match dp.program_step with
    | .preHeat | .waitForFood | .cook => true
    | .unknown | .waitForRemoveFood => false
    | .error => prior

/-- The tail of `_async_update_data` after a successful subscribe step: send
the live-feed request, wait (a timeout is caught and only logged), then build
the snapshot. -/
def poll_write_and_wait (st : CoordState)
    (write_result : Except JouleBLEError Unit)
    (arrived : Option CirculatorDataPoint) :
    CoordState × Except UpdateFailed Snapshot :=
  match write_result with
  | .error e => (st, .error (.bleFailed e))
  | .ok _ =>
    let latest :=
      match arrived with
      | some dp => some dp
      | none => st.latest_data_point
    let cooking := update_is_cooking latest st.is_cooking
    ({ st with latest_data_point := latest, is_cooking := cooking },
      .ok
        { current_temperature := current_temperature_of latest
          is_cooking := cooking
          target_temperature := st.target_temperature
          cook_time_minutes := st.cook_time_minutes
          temperature_unit := st.temperature_unit })

/-- `JouleCoordinator._async_update_data`: ensure-connected, subscribe once,
write a live-feed request, await the notification with timeout, build the
snapshot.  Any `JouleBLEError` becomes `UpdateFailed`; a timeout does not. -/
def async_update_data (st : CoordState)
    (connect_result subscribe_result write_result : Except JouleBLEError Unit)
    (arrived : Option CirculatorDataPoint) :
    CoordState × Except UpdateFailed Snapshot :=
  match connect_result with
  | .error e => (st, .error (.bleFailed e))
  | .ok _ =>
    if st.subscribed then
      poll_write_and_wait st write_result arrived
    else
      match subscribe_result with
      | .error e => (st, .error (.bleFailed e))
      | .ok _ =>
        poll_write_and_wait { st with subscribed := true } write_result arrived

/-- `JouleCoordinator.async_start_cooking`: the target settings are assigned
before the `try` block, `is_cooking` only after a successful write; a
`JouleBLEError` resurfaces as `HomeAssistantError`.  (The trailing
`async_refresh()` starts a fresh poll cycle and is outside this function's
own state changes.) -/
def async_start_cooking (st : CoordState)
    (target_temperature cook_time_minutes : ℚ)
    (connect_result write_result : Except JouleBLEError Unit) :
    CoordState × Option HomeAssistantError :=
  let st1 := { st with
    target_temperature := target_temperature
    cook_time_minutes := cook_time_minutes }
  match connect_result with
  | .error e => (st1, some (.startCookingFailed e))
  | .ok _ =>
    match write_result with
    | .error e => (st1, some (.startCookingFailed e))
    | .ok _ => ({ st1 with is_cooking := true }, none)

/-- `JouleCoordinator.async_stop_cooking`. -/
def async_stop_cooking (st : CoordState)
    (connect_result write_result : Except JouleBLEError Unit) :
    CoordState × Option HomeAssistantError :=
  match connect_result with
  | .error e => (st, some (.stopCookingFailed e))
  | .ok _ =>
    match write_result with
    | .error e => (st, some (.stopCookingFailed e))
    | .ok _ => ({ st with is_cooking := false }, none)

/-- `JouleCoordinator.async_set_target_temperature` (no device write). -/
def async_set_target_temperature (st : CoordState) (value_celsius : ℚ) :
    CoordState :=
  { st with target_temperature := value_celsius }

/-- `JouleCoordinator.async_set_cook_time` (no device write). -/
def async_set_cook_time (st : CoordState) (value : ℚ) : CoordState :=
  { st with cook_time_minutes := value }

def exceptIsError {ε α : Type} : Except ε α → Bool
  | .error _ => true
  | .ok _ => false

theorem decode_stream_message_of_fields_error {data : List Nat}
    {e : JouleProtoError} (h : decode_fields data = .error e) :
    decode_stream_message data = .error (.proto e) := by
  unfold decode_stream_message
  rw [h]

theorem decode_stream_message_of_fields_ok {data : List Nat}
    {flds : List RawField} (h : decode_fields data = .ok flds) :
    decode_stream_message data = decode_stream_fields {} flds := by
  unfold decode_stream_message
  rw [h]

theorem decode_data_point_of_fields_error {data : List Nat}
    {e : JouleProtoError} (h : decode_fields data = .error e) :
    decode_circulator_data_point data = .error (.proto e) := by
  unfold decode_circulator_data_point
  rw [h]

theorem decode_data_point_of_fields_ok {data : List Nat}
    {flds : List RawField} (h : decode_fields data = .ok flds) :
    decode_circulator_data_point data = decode_data_point_fields {} flds := by
  unfold decode_circulator_data_point
  rw [h]

theorem parse_notification_of_error {data : List Nat} {e : PyError}
    (h : decode_stream_message data = .error e) :
    parse_notification data = none := by
  unfold parse_notification
  rw [h]

theorem parse_notification_of_ok {data : List Nat} {msg : StreamMessage}
    (h : decode_stream_message data = .ok msg) :
    parse_notification data = msg.circulator_data_point := by
  unfold parse_notification
  rw [h]

theorem decode_fields_error_of_varint {data : List Nat} {e : JouleProtoError}
    (hlen : 0 < data.length) (h : decode_varint data 0 = .error e) :
    decode_fields data = .error e := by
  rw [decode_fields, decode_fields_from, if_pos hlen]
  split
  · rename_i e' heq
    rw [h] at heq
    simp only [Except.error.injEq] at heq
    rw [heq]
  · rename_i tag o1 heq
    rw [h] at heq
    simp at heq

theorem decode_fields_garbage :
    decode_fields [0xFF, 0xFF, 0xFF] = .error .truncatedVarint :=
  decode_fields_error_of_varint (by simp)
    (by
      rw [decode_varint]
      exact decode_varint_loop_truncated _ 3 0 0 0 (by norm_num) (by decide)
        (by norm_num))

/-- C5: `parse_notification` is total: it returns the embedded data point
when the payload decodes to an envelope carrying one, and `none` on anything
else — including the concrete garbage and empty payloads from the spec. -/
theorem parse_notification_total :
    (∀ (data : List Nat) (msg : StreamMessage),
      decode_stream_message data = .ok msg →
        parse_notification data = msg.circulator_data_point) ∧
    (∀ (data : List Nat) (e : PyError),
      decode_stream_message data = .error e →
        parse_notification data = none) ∧
    parse_notification [0xFF, 0xFF, 0xFF] = none ∧
    parse_notification [] = none := by
  refine ⟨fun data msg h => parse_notification_of_ok h,
    fun data e h => parse_notification_of_error h, ?_, ?_⟩
  · exact parse_notification_of_error
      (decode_stream_message_of_fields_error decode_fields_garbage)
  · have hfields : decode_fields [] = .ok [] := by
      rw [decode_fields]
      exact decode_fields_from_nil (by norm_num)
    have h := decode_stream_message_of_fields_ok hfields
    rw [parse_notification_of_ok h]

/-- Witness for C5 at concrete inputs: an envelope with no data point and a
garbage payload. -/
theorem parse_notification_total_witness :
    decode_stream_message [] = .ok {} ∧ parse_notification [] = none := by
  have hfields : decode_fields [] = .ok [] := by
    rw [decode_fields]
    exact decode_fields_from_nil (by norm_num)
  have h : decode_stream_message [] = .ok {} :=
    decode_stream_message_of_fields_ok hfields
  exact ⟨h, parse_notification_total.1 [] {} h⟩

/-- C3 counterexample: starting from the default coordinator state, a failed
start-cooking action (connect error) raises, but the state was already
mutated: `target_temperature` moved from 60 to 65 (and `cook_time_minutes`
from 0 to 90), so the claim that the state equals its pre-action value is
false. -/
theorem start_cooking_failure_mutates_state :
    (async_start_cooking {} 65 90 (.error 7) (.ok ())).2 =
        some (.startCookingFailed 7) ∧
    (async_start_cooking {} 65 90 (.error 7) (.ok ())).1.target_temperature
        = 65 ∧
    (async_start_cooking {} 65 90 (.error 7) (.ok ())).1.cook_time_minutes
        = 90 ∧
    ({} : CoordState).target_temperature = 60 ∧
    (async_start_cooking {} 65 90 (.error 7) (.ok ())).1 ≠ ({} : CoordState)
    := by
  refine ⟨rfl, rfl, rfl, rfl, fun h => ?_⟩
  have := congrArg CoordState.target_temperature h
  norm_num [async_start_cooking] at this

/-- C3 as amended: a transport failure in a control action raises
synchronously and leaves `is_cooking` untouched, and a failed stop-cooking
action leaves the whole state untouched; but `async_start_cooking` assigns
`target_temperature` and `cook_time_minutes` before attempting the
transport, so those two fields keep the new values even when the action
fails. -/
theorem control_action_failure_semantics :
    (∀ (st : CoordState) (t c : ℚ) (e : JouleBLEError)
        (w : Except JouleBLEError Unit),
      async_start_cooking st t c (.error e) w =
        ({ st with target_temperature := t, cook_time_minutes := c },
          some (.startCookingFailed e))) ∧
    (∀ (st : CoordState) (t c : ℚ) (e : JouleBLEError),
      async_start_cooking st t c (.ok ()) (.error e) =
        ({ st with target_temperature := t, cook_time_minutes := c },
          some (.startCookingFailed e))) ∧
    (∀ (st : CoordState) (t c : ℚ) (cr w : Except JouleBLEError Unit),
      (async_start_cooking st t c cr w).2.isSome →
        (async_start_cooking st t c cr w).1.is_cooking = st.is_cooking) ∧
    (∀ (st : CoordState) (e : JouleBLEError) (w : Except JouleBLEError Unit),
      async_stop_cooking st (.error e) w = (st, some (.stopCookingFailed e))) ∧
    (∀ (st : CoordState) (e : JouleBLEError),
      async_stop_cooking st (.ok ()) (.error e) =
        (st, some (.stopCookingFailed e))) := by
  refine ⟨fun st t c e w => rfl, fun st t c e => rfl, ?_,
    fun st e w => rfl, fun st e => rfl⟩
  intro st t c cr w h
  match cr, w with
  | .error e, w => rfl
  | .ok (), .error e => rfl
  | .ok (), .ok () => simp [async_start_cooking] at h

/-- Witness for C3's amended theorem at a concrete state and failure. -/
theorem control_action_failure_semantics_witness :
    (async_start_cooking {} 65 90 (.error 7) (.ok ())).2.isSome = true ∧
    (async_start_cooking {} 65 90 (.error 7) (.ok ())).1.is_cooking =
      ({} : CoordState).is_cooking :=
  ⟨rfl, control_action_failure_semantics.2.2.1 {} 65 90 (.error 7) (.ok ())
    (by simp [async_start_cooking])⟩

/-- C6: in the poll-cycle snapshot, `current_temperature` is the latest bath
temperature (0.0 when no telemetry was ever received) and `is_cooking` is
true after PRE_HEAT / WAIT_FOR_FOOD / COOK, false after UNKNOWN /
WAIT_FOR_REMOVE_FOOD, and sticky (unchanged) after ERROR — the only other
step.  The final conjunct ties these functions to the successful poll
cycle. -/
theorem snapshot_computation :
    (∀ dp : CirculatorDataPoint,
      current_temperature_of (some dp) = dp.bath_temp) ∧
    current_temperature_of none = 0 ∧
    (∀ (dp : CirculatorDataPoint) (b : Bool),
      dp.program_step = .preHeat ∨ dp.program_step = .waitForFood ∨
          dp.program_step = .cook →
        update_is_cooking (some dp) b = true) ∧
    (∀ (dp : CirculatorDataPoint) (b : Bool),
      dp.program_step = .unknown ∨ dp.program_step = .waitForRemoveFood →
        update_is_cooking (some dp) b = false) ∧
    (∀ (dp : CirculatorDataPoint) (b : Bool),
      dp.program_step = .error → update_is_cooking (some dp) b = b) ∧
    (∀ (st : CoordState) (arrived : Option CirculatorDataPoint),
      (poll_write_and_wait st (.ok ()) arrived).2 =
        .ok
          { current_temperature := current_temperature_of
              (match arrived with
                | some dp => some dp
                | none => st.latest_data_point)
            is_cooking := update_is_cooking
              (match arrived with
                | some dp => some dp
                | none => st.latest_data_point) st.is_cooking
            target_temperature := st.target_temperature
            cook_time_minutes := st.cook_time_minutes
            temperature_unit := st.temperature_unit }) := by
  refine ⟨fun dp => rfl, rfl, ?_, ?_, ?_, fun st arrived => rfl⟩
  · intro dp b h
    rcases h with h | h | h <;> simp [update_is_cooking, h]
  · intro dp b h
    rcases h with h | h <;> simp [update_is_cooking, h]
  · intro dp b h
    simp [update_is_cooking, h]

/-- Witness for C6 at a concrete data point in the ERROR step (stickiness)
and in the COOK step. -/
theorem snapshot_computation_witness :
    update_is_cooking (some { program_step := .error }) true = true ∧
    update_is_cooking (some { program_step := .error }) false = false ∧
    update_is_cooking (some { program_step := .cook }) false = true :=
  ⟨snapshot_computation.2.2.2.2.1 { program_step := .error } true rfl,
    snapshot_computation.2.2.2.2.1 { program_step := .error } false rfl,
    snapshot_computation.2.2.1 { program_step := .cook } false
      (by right; right; rfl)⟩

/-- C9: a poll cycle fails (raises `UpdateFailed`) exactly when a BLE
transport error occurs at connect, (first-cycle) subscribe, or write; a
timeout with healthy transport completes the cycle successfully on the
previously latest telemetry. -/
theorem poll_failure_semantics :
    (∀ (st : CoordState) (cr sr wr : Except JouleBLEError Unit)
        (arrived : Option CirculatorDataPoint),
      exceptIsError (async_update_data st cr sr wr arrived).2 =
        (exceptIsError cr || (!st.subscribed && exceptIsError sr) ||
          exceptIsError wr)) ∧
    (∀ st : CoordState,
      async_update_data st (.ok ()) (.ok ()) (.ok ()) none =
        ({ st with
            subscribed := true
            is_cooking := update_is_cooking st.latest_data_point st.is_cooking },
          .ok
            { current_temperature :=
                current_temperature_of st.latest_data_point
              is_cooking := update_is_cooking st.latest_data_point
                st.is_cooking
              target_temperature := st.target_temperature
              cook_time_minutes := st.cook_time_minutes
              temperature_unit := st.temperature_unit })) := by
  constructor
  · intro st cr sr wr arrived
    match cr with
    | .error e => rfl
    | .ok () =>
      by_cases hsub : st.subscribed
      · match wr with
        | .error e =>
          simp [async_update_data, poll_write_and_wait, hsub, exceptIsError]
        | .ok () =>
          simp [async_update_data, poll_write_and_wait, hsub, exceptIsError]
      · match sr, wr with
        | .error e, wr =>
          simp [async_update_data, poll_write_and_wait, hsub, exceptIsError]
        | .ok (), .error e =>
          simp [async_update_data, poll_write_and_wait, hsub, exceptIsError]
        | .ok (), .ok () =>
          simp [async_update_data, poll_write_and_wait, hsub, exceptIsError]
  · intro st
    by_cases hsub : st.subscribed
    · obtain ⟨ic, tt, ct, tu, ldp, sub⟩ := st
      simp only at hsub
      subst hsub
      simp [async_update_data, poll_write_and_wait]
    · obtain ⟨ic, tt, ct, tu, ldp, sub⟩ := st
      simp only at hsub
      simp [async_update_data, poll_write_and_wait, hsub]

/-- C2 counterexample: the message decoders are not total — a truncated
buffer makes `decode_stream_message` fail with the propagated
`JouleProtoError`, and a well-formed buffer whose field 4 carries the
out-of-range enum value 3 makes `decode_circulator_data_point` fail with the
`ValueError` from `ErrorState(value)`. -/
theorem decoders_do_raise :
    decode_stream_message [0x80] = .error (.proto .truncatedVarint) ∧
    decode_circulator_data_point [0x20, 0x03] = .error .valueError := by
  constructor
  · apply decode_stream_message_of_fields_error
    apply decode_fields_error_of_varint (by simp)
    rw [decode_varint]
    exact decode_varint_loop_truncated _ 1 0 0 0 (by norm_num) (by decide)
      (by norm_num)
  · have hbytes : encodeRawFields [(4, 0, RawValue.vint 3)] = [0x20, 0x03] := by
      simp only [encodeRawFields, encodeRawField, encode_tag]
      rw [show ((4 : Nat) <<< 3) ||| 0 = 32 by decide]
      rw [encode_varint_small (by norm_num), encode_varint_small (by norm_num)]
      rfl
    have hfields : decode_fields [0x20, 0x03] = .ok [(4, 0, RawValue.vint 3)] := by
      rw [← hbytes]
      apply decode_fields_encoded
      intro fld hf
      rw [List.mem_singleton] at hf
      subst hf
      exact .vint (by norm_num) (by norm_num)
    rw [decode_data_point_of_fields_ok hfields]
    rfl

/-- The `(field_number, wire_type)` pairs `decode_circulator_data_point`
recognises. -/
def dataPointKnownKeys : List (Nat × Nat) :=
  [(1, 0), (2, 0), (3, 0), (4, 0), (10, 5), (11, 0), (12, 0)]

/-- The `(field_number, wire_type)` pairs `decode_stream_message`
recognises. -/
def streamKnownKeys : List (Nat × Nat) :=
  [(1, 5), (4, 0), (5, 2), (6, 2), (90, 2)]

theorem errorState_ofNat_lt {v : Nat} (h : v < 3) :
    ∃ e, ErrorState.ofNat? v = some e := by
  interval_cases v <;> exact ⟨_, rfl⟩

theorem programStep_ofNat_lt {v : Nat} (h : v < 6) :
    ∃ s, ProgramStep.ofNat? v = some s := by
  interval_cases v <;> exact ⟨_, rfl⟩

/-- C2 as amended: unknown field numbers and known field numbers carried
with the wrong wire type are indeed skipped, and any `decode_fields` failure
propagates out of both decoders unchanged; but the decoders are not total —
they fail exactly on buffers where the field scanner fails and (for the data
point) on in-range fields 4/11 carrying out-of-range enum values.  When the
scanner succeeds and every enum value is in range, the data-point decoder
succeeds. -/
theorem decoders_skip_unknown_fields :
    (∀ (p : CirculatorDataPoint) (f wt : Nat) (v : RawValue),
      (f, wt) ∉ dataPointKnownKeys →
        decode_data_point_field p (f, wt, v) = .ok p) ∧
    (∀ (m : StreamMessage) (f wt : Nat) (v : RawValue),
      (f, wt) ∉ streamKnownKeys →
        decode_stream_field m (f, wt, v) = .ok m) ∧
    (∀ (data : List Nat) (e : JouleProtoError),
      decode_fields data = .error e →
        decode_stream_message data = .error (.proto e) ∧
          decode_circulator_data_point data = .error (.proto e)) ∧
    (∀ (flds : List RawField) (p : CirculatorDataPoint),
      (∀ n : Nat, (4, 0, RawValue.vint n) ∈ flds → n < 3) →
      (∀ n : Nat, (11, 0, RawValue.vint n) ∈ flds → n < 6) →
        ∃ q, decode_data_point_fields p flds = .ok q) := by
  refine ⟨?_, ?_, ?_, ?_⟩
  · intro p f wt v hmem
    unfold decode_data_point_field
    split <;>
      first
        | rfl
        | (rename_i heq
           simp only [Prod.mk.injEq] at heq
           obtain ⟨rfl, rfl, -⟩ := heq
           exact absurd (by decide) hmem)
  · intro m f wt v hmem
    unfold decode_stream_field
    split <;>
      first
        | rfl
        | (rename_i heq
           simp only [Prod.mk.injEq] at heq
           obtain ⟨rfl, rfl, -⟩ := heq
           exact absurd (by decide) hmem)
  · intro data e h
    exact ⟨decode_stream_message_of_fields_error h,
      decode_data_point_of_fields_error h⟩
  · intro flds
    induction flds with
    | nil => exact fun p _ _ => ⟨p, rfl⟩
    | cons fld rest ih =>
      intro p h4 h11
      have hstep : ∃ p', decode_data_point_field p fld = .ok p' := by
        unfold decode_data_point_field
        split
        · exact ⟨_, rfl⟩
        · exact ⟨_, rfl⟩
        · exact ⟨_, rfl⟩
        · rename_i fld' n
          obtain ⟨e, he⟩ := errorState_ofNat_lt (h4 n (by simp))
          rw [he]
          exact ⟨_, rfl⟩
        · exact ⟨_, rfl⟩
        · rename_i fld' n
          obtain ⟨s, hs⟩ := programStep_ofNat_lt (h11 n (by simp))
          rw [hs]
          exact ⟨_, rfl⟩
        · exact ⟨_, rfl⟩
        · exact ⟨_, rfl⟩
      obtain ⟨p', hp'⟩ := hstep
      rw [decode_data_point_fields, hp']
      exact ih p' (fun n hn => h4 n (by simp [hn]))
        (fun n hn => h11 n (by simp [hn]))

/-- Witness for C2's amended theorem: an unknown field is skipped, a wrong
wire type for field 10 is skipped, and a data point with in-range enums
decodes. -/
theorem decoders_skip_unknown_fields_witness :
    decode_data_point_field {} (99, 0, .vint 12345) = .ok {} ∧
    decode_data_point_field {} (10, 0, .vint 7) = .ok {} ∧
    ∃ q, decode_data_point_fields {} [(4, 0, RawValue.vint 1),
      (11, 0, RawValue.vint 3)] = .ok q :=
  ⟨decoders_skip_unknown_fields.1 {} 99 0 (.vint 12345) (by decide),
    decoders_skip_unknown_fields.1 {} 10 0 (.vint 7) (by decide),
    decoders_skip_unknown_fields.2.2.2
      [(4, 0, RawValue.vint 1), (11, 0, RawValue.vint 3)] {}
      (by intro n hn; simp at hn; omega)
      (by intro n hn; simp at hn; omega)⟩

theorem packLE4_length (v : Nat) : (packLE4 v).length = 4 := rfl

theorem unpackLE4_packLE4 {v : Nat} (h : v < 2 ^ 32) :
    unpackLE4 (packLE4 v) = v := by
  show v % 256 ||| ((v >>> 8) % 256) <<< 8 ||| ((v >>> 16) % 256) <<< 16
      ||| ((v >>> 24) % 256) <<< 24 = v
  simp only [Nat.shiftRight_eq_div_pow]
  have h8 : v % 256 < 2 ^ 8 := by
    have := Nat.mod_lt v (show 0 < 256 by norm_num)
    norm_num
    omega
  rw [lor_shiftLeft_eq_add h8]
  have h16 : v % 256 + v / 2 ^ 8 % 256 * 2 ^ 8 < 2 ^ 16 := by
    have h1 := Nat.mod_lt v (show 0 < 256 by norm_num)
    have h2 := Nat.mod_lt (v / 2 ^ 8) (show 0 < 256 by norm_num)
    norm_num at h1 h2 ⊢
    omega
  rw [lor_shiftLeft_eq_add h16]
  have h24 : v % 256 + v / 2 ^ 8 % 256 * 2 ^ 8 + v / 2 ^ 16 % 256 * 2 ^ 16
      < 2 ^ 24 := by
    have h1 := Nat.mod_lt v (show 0 < 256 by norm_num)
    have h2 := Nat.mod_lt (v / 2 ^ 8) (show 0 < 256 by norm_num)
    have h3 := Nat.mod_lt (v / 2 ^ 16) (show 0 < 256 by norm_num)
    norm_num at h1 h2 h3 ⊢
    omega
  rw [lor_shiftLeft_eq_add h24]
  norm_num
  omega

theorem encodeRawFields_append (xs ys : List RawField) :
    encodeRawFields (xs ++ ys) = encodeRawFields xs ++ encodeRawFields ys := by
  induction xs with
  | nil => rfl
  | cons x xs ih => simp [encodeRawFields, ih]

/-- The field sequence of `encode_circulator_program`, with the default-value
elision the spec describes (field 2 present iff `cook_time > 0`, field 5
present iff the program type is not MANUAL). -/
def program_fields (p : CirculatorProgram) : List RawField :=
  [(1, 5, RawValue.raw (packLE4 p.set_point))]
    ++ (if p.cook_time > 0 then [(2, 0, RawValue.vint p.cook_time)] else [])
    ++ (if p.program_type ≠ ProgramType.manual then
          [(5, 0, RawValue.vint p.program_type.toNat)]
        else [])

theorem encode_circulator_program_eq (p : CirculatorProgram) :
    encode_circulator_program p = encodeRawFields (program_fields p) := by
  unfold encode_circulator_program program_fields
  by_cases h1 : p.cook_time > 0 <;>
    by_cases h2 : p.program_type ≠ ProgramType.manual <;>
      simp [h1, h2, encodeRawFields_append, encodeRawFields, encodeRawField,
        encode_field_float, encode_field_varint, encode_tag, WIRETYPE_FIXED32,
        WIRETYPE_VARINT, List.append_assoc]

theorem program_fields_wf {p : CirculatorProgram}
    (hct : p.cook_time < 2 ^ 64) :
    ∀ fld ∈ program_fields p, WFRawField fld := by
  intro fld hf
  unfold program_fields at hf
  simp only [List.mem_append, List.mem_singleton] at hf
  rcases hf with (hf | hf) | hf
  · subst hf
    exact .fixed32 (by norm_num) (packLE4_length _)
  · split at hf
    · rw [List.mem_singleton] at hf
      subst hf
      exact .vint (by norm_num) hct
    · simp at hf
  · split at hf
    · rw [List.mem_singleton] at hf
      subst hf
      refine .vint (by norm_num) ?_
      cases p.program_type <;> simp [ProgramType.toNat]
    · simp at hf

theorem decode_fields_program (p : CirculatorProgram)
    (hct : p.cook_time < 2 ^ 64) :
    decode_fields (encode_circulator_program p) = .ok (program_fields p) := by
  rw [encode_circulator_program_eq]
  exact decode_fields_encoded (program_fields_wf hct)

/-- C8: default-value elision in `encode_circulator_program` — field 2 is on
the wire exactly when `cook_time ≠ 0` and field 5 exactly when the program
type is not MANUAL; concretely, the program (65.0 °C, no time limit, MANUAL)
encodes to just the set-point field and (65.0 °C, 3600 s) adds field 2 with
value 3600.  (65.0f has IEEE-754 bit pattern 0x42820000.) -/
theorem program_default_value_elision :
    (∀ p : CirculatorProgram, p.cook_time < 2 ^ 64 →
      decode_fields (encode_circulator_program p) = .ok (program_fields p) ∧
      ((∃ wt v, (2, wt, v) ∈ program_fields p) ↔ p.cook_time ≠ 0) ∧
      ((∃ wt v, (5, wt, v) ∈ program_fields p) ↔
        p.program_type ≠ ProgramType.manual)) ∧
    decode_fields (encode_circulator_program
        { set_point := 0x42820000, cook_time := 0,
          program_type := .manual }) =
      .ok [(1, 5, RawValue.raw [0x00, 0x00, 0x82, 0x42])] ∧
    decode_fields (encode_circulator_program
        { set_point := 0x42820000, cook_time := 3600 }) =
      .ok [(1, 5, RawValue.raw [0x00, 0x00, 0x82, 0x42]),
        (2, 0, RawValue.vint 3600)] := by
  refine ⟨fun p hct => ⟨decode_fields_program p hct, ?_, ?_⟩, ?_, ?_⟩
  · unfold program_fields
    constructor
    · rintro ⟨wt, v, hv⟩
      simp only [List.mem_append, List.mem_singleton] at hv
      rcases hv with (hv | hv) | hv
      · simp at hv
      · split at hv
        · omega
        · simp at hv
      · split at hv
        · rw [List.mem_singleton] at hv
          simp at hv
        · simp at hv
    · intro h
      refine ⟨0, RawValue.vint p.cook_time, ?_⟩
      simp [if_pos (by omega : p.cook_time > 0)]
  · unfold program_fields
    constructor
    · rintro ⟨wt, v, hv⟩
      simp only [List.mem_append, List.mem_singleton] at hv
      rcases hv with (hv | hv) | hv
      · simp at hv
      · split at hv
        · rw [List.mem_singleton] at hv
          simp at hv
        · simp at hv
      · split at hv
        · rename_i hcond
          exact hcond
        · simp at hv
    · intro h
      refine ⟨0, RawValue.vint p.program_type.toNat, ?_⟩
      simp [if_pos h]
  · have h := decode_fields_program
      { set_point := 0x42820000, cook_time := 0, program_type := .manual }
      (by norm_num)
    rw [h]
    rfl
  · have h := decode_fields_program { set_point := 0x42820000, cook_time := 3600 }
      (by norm_num)
    rw [h]
    rfl

/-- Witness for C8 at the concrete MANUAL/no-time-limit program. -/
theorem program_default_value_elision_witness :
    decode_fields (encode_circulator_program
        { set_point := 0x42820000, cook_time := 0, program_type := .manual }) =
      .ok (program_fields
        { set_point := 0x42820000, cook_time := 0, program_type := .manual }) ∧
    ¬(∃ wt v, (2, wt, v) ∈ program_fields
        { set_point := 0x42820000, cook_time := 0,
          program_type := .manual }) := by
  have h := program_default_value_elision.1
    { set_point := 0x42820000, cook_time := 0, program_type := .manual }
    (by norm_num)
  exact ⟨h.1, fun hx => by have := h.2.1.mp hx; simp at this⟩

theorem encode_varint_length_le10 {v : Nat} (h : v < 2 ^ 64) :
    (encode_varint v).length ≤ 10 :=
  encode_varint_length_le 9 v (lt_of_lt_of_le h (by norm_num))

theorem encode_tag_length_one {f wt : Nat} (h : (f <<< 3) ||| wt ≤ 0x7F) :
    (encode_tag f wt).length = 1 := by
  rw [encode_tag, encode_varint_small h]
  rfl

theorem encode_circulator_program_length {p : CirculatorProgram}
    (hct : p.cook_time < 2 ^ 64) :
    (encode_circulator_program p).length ≤ 18 := by
  unfold encode_circulator_program encode_field_float encode_field_varint
  have ht1 : (encode_tag 1 WIRETYPE_FIXED32).length = 1 :=
    encode_tag_length_one (by decide)
  have ht2 : (encode_tag 2 WIRETYPE_VARINT).length = 1 :=
    encode_tag_length_one (by decide)
  have ht5 : (encode_tag 5 WIRETYPE_VARINT).length = 1 :=
    encode_tag_length_one (by decide)
  have hv2 : (encode_varint p.cook_time).length ≤ 10 :=
    encode_varint_length_le10 hct
  have hv5 : (encode_varint p.program_type.toNat).length = 1 := by
    cases hpt : p.program_type <;>
      · simp only [ProgramType.toNat]
        rw [encode_varint_small (by norm_num)]
        rfl
  by_cases h1 : p.cook_time > 0 <;>
    by_cases h2 : p.program_type ≠ ProgramType.manual <;>
      simp [h1, h2, ht1, ht2, ht5, hv5, packLE4] <;> omega

theorem encode_start_program_request_length {r : StartProgramRequest}
    (hct : r.circulator_program.cook_time < 2 ^ 64) :
    (encode_start_program_request r).length ≤ 20 := by
  unfold encode_start_program_request encode_field_bytes
  have ht : (encode_tag 1 WIRETYPE_LENGTH_DELIMITED).length = 1 :=
    encode_tag_length_one (by decide)
  have hinner : (encode_circulator_program r.circulator_program).length ≤ 18 :=
    encode_circulator_program_length hct
  have hlen : (encode_varint
      (encode_circulator_program r.circulator_program).length).length = 1 := by
    rw [encode_varint_small (by omega)]
    rfl
  simp [ht, hlen]
  omega

theorem encode_begin_live_feed_request_length {r : BeginLiveFeedRequest}
    (h : r.feed_id < 2 ^ 64) :
    (encode_begin_live_feed_request r).length ≤ 11 := by
  unfold encode_begin_live_feed_request encode_field_varint
  have ht : (encode_tag 1 WIRETYPE_VARINT).length = 1 :=
    encode_tag_length_one (by decide)
  have hv : (encode_varint r.feed_id).length ≤ 10 := encode_varint_length_le10 h
  simp [ht]
  omega

/-- The field sequence §4.2 of the spec prescribes for an encoded envelope:
handle first, then the optional end flag, sender and recipient, then exactly
one oneof field (50 > 60 > 70 priority).  Stated from the spec's wording, to
be compared against `encode_stream_message`. -/
def spec_stream_fields (m : StreamMessage) : List RawField :=
  [(1, 5, RawValue.raw (packLE4 m.handle))]
    ++ (if m.endFlag then [(4, 0, RawValue.vint 1)] else [])
    ++ (if m.sender_address ≠ [] then
          [(5, 2, RawValue.raw m.sender_address)]
        else [])
    ++ (if m.recipient_address ≠ [] then
          [(6, 2, RawValue.raw m.recipient_address)]
        else [])
    ++ (match m.start_program_request, m.stop_circulator_request,
          m.begin_live_feed_request with
        | some r, _, _ => [(50, 2, RawValue.raw (encode_start_program_request r))]
        | none, some r, _ =>
          [(60, 2, RawValue.raw (encode_stop_circulator_request r))]
        | none, none, some r =>
          [(70, 2, RawValue.raw (encode_begin_live_feed_request r))]
        | none, none, none => [])

theorem encode_stream_message_eq (m : StreamMessage) :
    encode_stream_message m = encodeRawFields (spec_stream_fields m) := by
  unfold encode_stream_message spec_stream_fields
  rcases hsp : m.start_program_request with _ | r <;>
    rcases hst : m.stop_circulator_request with _ | r' <;>
      rcases hbl : m.begin_live_feed_request with _ | r'' <;>
        cases hef : m.endFlag <;>
          by_cases hsa : m.sender_address ≠ [] <;>
            by_cases hra : m.recipient_address ≠ [] <;>
              simp [hsa, hra, encodeRawFields_append, encodeRawFields,
                encodeRawField, encode_field_fixed32, encode_field_varint,
                encode_field_bytes, encode_tag, WIRETYPE_FIXED32,
                WIRETYPE_VARINT, WIRETYPE_LENGTH_DELIMITED,
                FIELD_START_PROGRAM_REQUEST, FIELD_STOP_CIRCULATOR_REQUEST,
                FIELD_BEGIN_LIVE_FEED_REQUEST, List.append_assoc]

theorem spec_stream_fields_wf {m : StreamMessage}
    (hs : m.sender_address.length < 2 ^ 64)
    (hr : m.recipient_address.length < 2 ^ 64)
    (hct : ∀ r, m.start_program_request = some r →
      r.circulator_program.cook_time < 2 ^ 64)
    (hfi : ∀ r, m.begin_live_feed_request = some r → r.feed_id < 2 ^ 64) :
    ∀ fld ∈ spec_stream_fields m, WFRawField fld := by
  intro fld hf
  unfold spec_stream_fields at hf
  simp only [List.append_assoc, List.mem_append, List.mem_singleton] at hf
  rcases hf with hf | hf | hf | hf | hf
  · subst hf
    exact .fixed32 (by norm_num) (packLE4_length _)
  · split at hf
    · rw [List.mem_singleton] at hf
      subst hf
      exact .vint (by norm_num) (by norm_num)
    · simp at hf
  · split at hf
    · rw [List.mem_singleton] at hf
      subst hf
      exact .len (by norm_num) hs
    · simp at hf
  · split at hf
    · rw [List.mem_singleton] at hf
      subst hf
      exact .len (by norm_num) hr
    · simp at hf
  · rcases hsp : m.start_program_request with _ | r
    · rcases hst : m.stop_circulator_request with _ | r'
      · rcases hbl : m.begin_live_feed_request with _ | r''
        · simp [hsp, hst, hbl] at hf
        · rw [hsp, hst, hbl] at hf
          simp only [List.mem_singleton] at hf
          subst hf
          refine .len (by norm_num) ?_
          calc (encode_begin_live_feed_request r'').length ≤ 11 :=
                encode_begin_live_feed_request_length (hfi r'' hbl)
            _ < 2 ^ 64 := by norm_num
      · rw [hsp, hst] at hf
        simp only [List.mem_singleton] at hf
        subst hf
        exact .len (by norm_num) (by simp [encode_stop_circulator_request])
    · rw [hsp] at hf
      simp only [List.mem_singleton] at hf
      subst hf
      refine .len (by norm_num) ?_
      calc (encode_start_program_request r).length ≤ 20 :=
            encode_start_program_request_length (hct r hsp)
        _ < 2 ^ 64 := by norm_num

/-- The field numbers of the oneof group present in a field list. -/
def oneof_field_numbers (flds : List RawField) : List Nat :=
  (flds.map (fun fld => fld.1)).filter (fun f => f == 50 || f == 60 || f == 70)

/-- C4: the encoded envelope scans back (via the generic field parser) to
exactly the spec's field sequence — handle (field 1, fixed32) first, then the
end flag (field 4) only if true, sender (5) and recipient (6) only if
non-empty, then exactly one oneof field, start-program (50) taking priority
over stop (60) over live-feed (70) when several variants are populated. -/
theorem encode_stream_message_field_order (m : StreamMessage)
    (hs : m.sender_address.length < 2 ^ 64)
    (hr : m.recipient_address.length < 2 ^ 64)
    (hct : ∀ r, m.start_program_request = some r →
      r.circulator_program.cook_time < 2 ^ 64)
    (hfi : ∀ r, m.begin_live_feed_request = some r → r.feed_id < 2 ^ 64) :
    decode_fields (encode_stream_message m) = .ok (spec_stream_fields m) ∧
    oneof_field_numbers (spec_stream_fields m) =
      (match m.start_program_request, m.stop_circulator_request,
          m.begin_live_feed_request with
        | some _, _, _ => [50]
        | none, some _, _ => [60]
        | none, none, some _ => [70]
        | none, none, none => []) := by
  constructor
  · rw [encode_stream_message_eq]
    exact decode_fields_encoded (spec_stream_fields_wf hs hr hct hfi)
  · unfold spec_stream_fields oneof_field_numbers
    rcases m.start_program_request with _ | r <;>
      rcases m.stop_circulator_request with _ | r' <;>
        rcases m.begin_live_feed_request with _ | r'' <;>
          cases m.endFlag <;>
            by_cases hsa : m.sender_address ≠ [] <;>
              by_cases hra : m.recipient_address ≠ [] <;>
                simp [hsa, hra]

/-- Witness for C4 at a concrete envelope that (incorrectly) populates both
the start-program and stop variants: the encoder deterministically picks
field 50 (start-program priority). -/
theorem encode_stream_message_field_order_witness :
    decode_fields (encode_stream_message
        { endFlag := true
          sender_address := [1, 1, 1, 1, 1, 1]
          start_program_request := some
            { circulator_program := { set_point := 0x42960000, cook_time := 5400 } }
          stop_circulator_request := some {} }) =
      .ok (spec_stream_fields
        { endFlag := true
          sender_address := [1, 1, 1, 1, 1, 1]
          start_program_request := some
            { circulator_program := { set_point := 0x42960000, cook_time := 5400 } }
          stop_circulator_request := some {} }) ∧
    oneof_field_numbers (spec_stream_fields
        { endFlag := true
          sender_address := [1, 1, 1, 1, 1, 1]
          start_program_request := some
            { circulator_program := { set_point := 0x42960000, cook_time := 5400 } }
          stop_circulator_request := some {} }) = [50] :=
  encode_stream_message_field_order
    { endFlag := true
      sender_address := [1, 1, 1, 1, 1, 1]
      start_program_request := some
        { circulator_program := { set_point := 0x42960000, cook_time := 5400 } }
      stop_circulator_request := some {} }
    (by norm_num) (by norm_num)
    (by rintro r ⟨rfl⟩; norm_num) (by rintro r ⟨⟩)

/-- C10: partial envelope round-trip — decoding an encoded envelope recovers
handle, end flag, sender and recipient; the three request oneof variants are
encode-only (always `none` after decoding) and the data-point field (90) is
never emitted by the encoder. -/
theorem stream_roundtrip (m : StreamMessage) (hh : m.handle < 2 ^ 32)
    (hs : m.sender_address.length < 2 ^ 64)
    (hr : m.recipient_address.length < 2 ^ 64)
    (hct : ∀ r, m.start_program_request = some r →
      r.circulator_program.cook_time < 2 ^ 64)
    (hfi : ∀ r, m.begin_live_feed_request = some r → r.feed_id < 2 ^ 64) :
    decode_stream_message (encode_stream_message m) =
      .ok { handle := m.handle, endFlag := m.endFlag,
            sender_address := m.sender_address,
            recipient_address := m.recipient_address } ∧
    (∀ flds, decode_fields (encode_stream_message m) = .ok flds →
      ∀ (wt : Nat) (v : RawValue), (90, wt, v) ∉ flds) := by
  have hfields : decode_fields (encode_stream_message m) =
      .ok (spec_stream_fields m) := by
    rw [encode_stream_message_eq]
    exact decode_fields_encoded (spec_stream_fields_wf hs hr hct hfi)
  constructor
  · rw [decode_stream_message_of_fields_ok hfields]
    unfold spec_stream_fields
    rcases hsp : m.start_program_request with _ | r <;>
      rcases hst : m.stop_circulator_request with _ | r' <;>
        rcases hbl : m.begin_live_feed_request with _ | r'' <;>
          cases hef : m.endFlag <;>
            by_cases hsa : m.sender_address = [] <;>
              by_cases hra : m.recipient_address = [] <;>
                simp [hsa, hra, decode_stream_fields, decode_stream_field,
                  unpackLE4_packLE4 hh]
  · intro flds hflds wt v hmem
    rw [hfields] at hflds
    simp only [Except.ok.injEq] at hflds
    subst hflds
    unfold spec_stream_fields at hmem
    simp only [List.append_assoc, List.mem_append, List.mem_singleton] at hmem
    rcases hmem with h | h | h | h | h
    · simp at h
    · split at h <;> simp at h
    · split at h <;> simp at h
    · split at h <;> simp at h
    · rcases hsp : m.start_program_request with _ | r <;>
        rcases hst : m.stop_circulator_request with _ | r' <;>
          rcases hbl : m.begin_live_feed_request with _ | r'' <;>
            simp [hsp, hst, hbl] at h

/-- Witness for C10 at a concrete live-feed envelope. -/
theorem stream_roundtrip_witness :
    decode_stream_message (encode_stream_message
        { handle := 42, endFlag := true,
          sender_address := [1, 2, 3, 4, 5, 6],
          begin_live_feed_request := some {} }) =
      .ok { handle := 42, endFlag := true,
            sender_address := [1, 2, 3, 4, 5, 6] } :=
  (stream_roundtrip
    { handle := 42, endFlag := true, sender_address := [1, 2, 3, 4, 5, 6],
      begin_live_feed_request := some {} }
    (by norm_num) (by norm_num) (by norm_num)
    (by rintro r ⟨⟩) (by rintro r ⟨rfl⟩; norm_num)).1

/-- Scanning a buffer that starts with well-formed encoded fields parses them
and continues with the rest of the buffer. -/
theorem decode_fields_from_prefix :
    ∀ (flds : List RawField) (data tail : List Nat) (offset : Nat),
      (∀ fld ∈ flds, WFRawField fld) →
      data.drop offset = encodeRawFields flds ++ tail →
      decode_fields_from data offset =
        (decode_fields_from data
            (offset + (encodeRawFields flds).length)).map
          (fun rest => flds ++ rest) := by
  intro flds
  induction flds with
  | nil =>
    intro data tail offset _ hdrop
    simp only [encodeRawFields, List.length_nil, Nat.add_zero, List.nil_append]
    cases decode_fields_from data offset <;> rfl
  | cons fld tl ih =>
    intro data tail offset hwf hdrop
    rw [encodeRawFields, List.append_assoc] at hdrop
    rw [decode_fields_from_cons (hwf fld (by simp)) hdrop]
    rw [ih data tail (offset + (encodeRawField fld).length)
      (fun g hg => hwf g (by simp [hg])) (drop_append_of_drop hdrop)]
    simp only [encodeRawFields, List.length_append, ← Nat.add_assoc]
    cases decode_fields_from data
        (offset + (encodeRawField fld).length + (encodeRawFields tl).length) <;>
      rfl

/-- A scanner failure after a well-formed prefix propagates. -/
theorem decode_fields_prefix_error {flds : List RawField} {tail : List Nat}
    {e : JouleProtoError} (hwf : ∀ fld ∈ flds, WFRawField fld)
    (herr : decode_fields_from (encodeRawFields flds ++ tail)
      (encodeRawFields flds).length = .error e) :
    decode_fields (encodeRawFields flds ++ tail) = .error e := by
  rw [decode_fields,
    decode_fields_from_prefix flds (encodeRawFields flds ++ tail) tail 0 hwf
      (by simp)]
  simp only [Nat.zero_add]
  rw [herr]
  rfl

/-- An unsupported wire type (outside {0, 1, 2, 5}) at the scan point fails
with `Unsupported wire type`. -/
theorem decode_fields_from_unsupported {data rest : List Nat} {f wt offset : Nat}
    (hf : f < 2 ^ 61) (hwt : wt < 8)
    (h0 : wt ≠ 0) (h1 : wt ≠ 1) (h2 : wt ≠ 2) (h5 : wt ≠ 5)
    (hdrop : data.drop offset = encode_tag f wt ++ rest) :
    decode_fields_from data offset = .error (.unsupportedWireType wt) := by
  have htag := decode_tag_at hf hwt hdrop
  have hlt : offset < data.length := by
    have := congrArg List.length hdrop
    simp [List.length_drop, List.length_append] at this
    have hne : (encode_tag f wt).length ≠ 0 := by
      simp [encode_tag, encode_varint_ne_nil]
    omega
  rw [decode_fields_from, if_pos hlt]
  split
  · rename_i e heq
    rw [htag] at heq
    simp at heq
  · rename_i tag o1 heq
    rw [htag] at heq
    simp only [Except.ok.injEq, Prod.mk.injEq] at heq
    obtain ⟨hq1, hq2⟩ := heq
    subst hq1
    subst hq2
    rw [tag_and_7 hwt]
    rw [if_neg (by simpa [WIRETYPE_VARINT] using h0)]
    rw [if_neg (by simpa [WIRETYPE_FIXED32] using h5)]
    rw [if_neg (by simpa [WIRETYPE_FIXED64] using h1)]
    rw [if_neg (by simpa [WIRETYPE_LENGTH_DELIMITED] using h2)]

/-- A fixed32 field whose payload is cut short fails with
`Truncated fixed32`. -/
theorem decode_fields_from_trunc_fixed32 {data bs : List Nat} {f offset : Nat}
    (hf : f < 2 ^ 61) (hbs : bs.length < 4)
    (hdrop : data.drop offset = encode_tag f 5 ++ bs) :
    decode_fields_from data offset = .error .truncatedFixed32 := by
  have htag := decode_tag_at hf (by norm_num) hdrop
  have hlen := congrArg List.length hdrop
  simp only [List.length_drop, List.length_append] at hlen
  have hlt : offset < data.length := by
    have hne : (encode_tag f 5).length ≠ 0 := by
      simp [encode_tag, encode_varint_ne_nil]
    omega
  rw [decode_fields_from, if_pos hlt]
  split
  · rename_i e heq
    rw [htag] at heq
    simp at heq
  · rename_i tag o1 heq
    rw [htag] at heq
    simp only [Except.ok.injEq, Prod.mk.injEq] at heq
    obtain ⟨hq1, hq2⟩ := heq
    subst hq1
    subst hq2
    rw [tag_and_7 (by norm_num)]
    rw [if_neg (show ¬(5 : Nat) = WIRETYPE_VARINT by decide)]
    rw [if_pos (show (5 : Nat) = WIRETYPE_FIXED32 by rfl)]
    rw [if_pos (by omega)]

/-- A fixed64 field whose payload is cut short fails with
`Truncated fixed64`. -/
theorem decode_fields_from_trunc_fixed64 {data bs : List Nat} {f offset : Nat}
    (hf : f < 2 ^ 61) (hbs : bs.length < 8)
    (hdrop : data.drop offset = encode_tag f 1 ++ bs) :
    decode_fields_from data offset = .error .truncatedFixed64 := by
  have htag := decode_tag_at hf (by norm_num) hdrop
  have hlen := congrArg List.length hdrop
  simp only [List.length_drop, List.length_append] at hlen
  have hlt : offset < data.length := by
    have hne : (encode_tag f 1).length ≠ 0 := by
      simp [encode_tag, encode_varint_ne_nil]
    omega
  rw [decode_fields_from, if_pos hlt]
  split
  · rename_i e heq
    rw [htag] at heq
    simp at heq
  · rename_i tag o1 heq
    rw [htag] at heq
    simp only [Except.ok.injEq, Prod.mk.injEq] at heq
    obtain ⟨hq1, hq2⟩ := heq
    subst hq1
    subst hq2
    rw [tag_and_7 (by norm_num)]
    rw [if_neg (show ¬(1 : Nat) = WIRETYPE_VARINT by decide)]
    rw [if_neg (show ¬(1 : Nat) = WIRETYPE_FIXED32 by decide)]
    rw [if_pos (show (1 : Nat) = WIRETYPE_FIXED64 by rfl)]
    rw [if_pos (by omega)]

/-- A length-delimited field whose declared length exceeds the remaining
buffer fails with `Truncated length-delimited field`. -/
theorem decode_fields_from_trunc_len {data bs : List Nat} {f offset L : Nat}
    (hf : f < 2 ^ 61) (hL : L < 2 ^ 64) (hbs : bs.length < L)
    (hdrop : data.drop offset = encode_tag f 2 ++ encode_varint L ++ bs) :
    decode_fields_from data offset = .error .truncatedLengthDelimited := by
  have hdrop0 : data.drop offset = encode_tag f 2 ++ (encode_varint L ++ bs) := by
    rw [hdrop, List.append_assoc]
  have htag := decode_tag_at hf (by norm_num) hdrop0
  have hdrop1 : data.drop (offset + (encode_tag f 2).length) =
      encode_varint L ++ bs :=
    drop_append_of_drop hdrop0
  have hval : decode_varint data (offset + (encode_tag f 2).length) =
      .ok (L, offset + (encode_tag f 2).length + (encode_varint L).length) :=
    decode_varint_at hL hdrop1
  have hlen := congrArg List.length hdrop
  simp only [List.length_drop, List.length_append] at hlen
  have hlt : offset < data.length := by
    have hne : (encode_tag f 2).length ≠ 0 := by
      simp [encode_tag, encode_varint_ne_nil]
    omega
  rw [decode_fields_from, if_pos hlt]
  split
  · rename_i e heq
    rw [htag] at heq
    simp at heq
  · rename_i tag o1 heq
    rw [htag] at heq
    simp only [Except.ok.injEq, Prod.mk.injEq] at heq
    obtain ⟨hq1, hq2⟩ := heq
    subst hq1
    subst hq2
    rw [tag_and_7 (by norm_num)]
    rw [if_neg (show ¬(2 : Nat) = WIRETYPE_VARINT by decide)]
    rw [if_neg (show ¬(2 : Nat) = WIRETYPE_FIXED32 by decide)]
    rw [if_neg (show ¬(2 : Nat) = WIRETYPE_FIXED64 by decide)]
    rw [if_pos (show (2 : Nat) = WIRETYPE_LENGTH_DELIMITED by rfl)]
    split
    · rename_i e heq2
      rw [hval] at heq2
      simp at heq2
    · rename_i value o2 heq2
      rw [hval] at heq2
      simp only [Except.ok.injEq, Prod.mk.injEq] at heq2
      obtain ⟨hq3, hq4⟩ := heq2
      subst hq3
      subst hq4
      rw [if_pos (by omega)]

/-- C7: the low-level parsing layer fails exactly as specified.
`decode_varint` raises `Truncated varint` when the buffer ends mid-varint
(continuation bytes to the end, within the 9 steps the guard allows) and
`Varint too long` when 10 continuation bytes push the accumulated shift to
64 bits.  `decode_fields` scans left to right past any well-formed prefix
and raises `Unsupported wire type` on a tag with wire type outside
{0, 1, 2, 5}, and the matching truncation error when a fixed32 / fixed64 /
length-delimited payload exceeds the remaining buffer; on a buffer made of
well-formed fields it returns exactly those `(field_number, wire_type,
value)` tuples, in scan order. -/
theorem decode_failure_taxonomy :
    (∀ (data : List Nat) (offset : Nat),
      (∀ i (h : i < data.length), offset ≤ i →
        128 ≤ data[i] ∧ data[i] < 256) →
      data.length - offset ≤ 9 →
      decode_varint data offset = .error .truncatedVarint) ∧
    (∀ (data : List Nat) (offset : Nat),
      (∀ i (h : i < data.length), offset ≤ i → i ≤ offset + 9 →
        128 ≤ data[i] ∧ data[i] < 256) →
      offset + 9 < data.length →
      decode_varint data offset = .error .varintTooLong) ∧
    (∀ (flds : List RawField) (f wt : Nat) (rest : List Nat),
      (∀ fld ∈ flds, WFRawField fld) → f < 2 ^ 61 → wt < 8 →
      wt ≠ 0 → wt ≠ 1 → wt ≠ 2 → wt ≠ 5 →
      decode_fields (encodeRawFields flds ++ (encode_tag f wt ++ rest)) =
        .error (.unsupportedWireType wt)) ∧
    (∀ (flds : List RawField) (f : Nat) (bs : List Nat),
      (∀ fld ∈ flds, WFRawField fld) → f < 2 ^ 61 → bs.length < 4 →
      decode_fields (encodeRawFields flds ++ (encode_tag f 5 ++ bs)) =
        .error .truncatedFixed32) ∧
    (∀ (flds : List RawField) (f : Nat) (bs : List Nat),
      (∀ fld ∈ flds, WFRawField fld) → f < 2 ^ 61 → bs.length < 8 →
      decode_fields (encodeRawFields flds ++ (encode_tag f 1 ++ bs)) =
        .error .truncatedFixed64) ∧
    (∀ (flds : List RawField) (f L : Nat) (bs : List Nat),
      (∀ fld ∈ flds, WFRawField fld) → f < 2 ^ 61 → L < 2 ^ 64 →
      bs.length < L →
      decode_fields
          (encodeRawFields flds ++ (encode_tag f 2 ++ encode_varint L ++ bs)) =
        .error .truncatedLengthDelimited) ∧
    (∀ flds : List RawField, (∀ fld ∈ flds, WFRawField fld) →
      decode_fields (encodeRawFields flds) = .ok flds) := by
  refine ⟨?_, ?_, ?_, ?_, ?_, ?_, fun flds hwf => decode_fields_encoded hwf⟩
  · intro data offset hcont hlen
    rw [decode_varint]
    exact decode_varint_loop_truncated data (data.length - offset) offset 0 0
      (le_refl _) hcont (by omega)
  · intro data offset hcont hlen
    rw [decode_varint]
    exact decode_varint_loop_tooLong data 9 offset 0 0 hcont hlen (by omega)
  · intro flds f wt rest hwf hf hwt h0 h1 h2 h5
    exact decode_fields_prefix_error hwf
      (decode_fields_from_unsupported hf hwt h0 h1 h2 h5 (List.drop_left _ _))
  · intro flds f bs hwf hf hbs
    exact decode_fields_prefix_error hwf
      (decode_fields_from_trunc_fixed32 hf hbs (List.drop_left _ _))
  · intro flds f bs hwf hf hbs
    exact decode_fields_prefix_error hwf
      (decode_fields_from_trunc_fixed64 hf hbs (List.drop_left _ _))
  · intro flds f L bs hwf hf hL hbs
    exact decode_fields_prefix_error hwf
      (decode_fields_from_trunc_len hf hL hbs (List.drop_left _ _))

/-- Witness for C7 at concrete inputs: a buffer ending mid-varint, ten
continuation bytes, a wire-type-3 tag, truncated fixed32 / fixed64 /
length-delimited fields, and a well-formed two-field buffer. -/
theorem decode_failure_taxonomy_witness :
    decode_varint [0x80, 0x80] 0 = .error .truncatedVarint ∧
    decode_varint [0x80, 0x80, 0x80, 0x80, 0x80, 0x80, 0x80, 0x80, 0x80, 0x80]
      0 = .error .varintTooLong ∧
    decode_fields (encodeRawFields [] ++ (encode_tag 1 3 ++ [])) =
      .error (.unsupportedWireType 3) ∧
    decode_fields (encodeRawFields [] ++ (encode_tag 1 5 ++ [0, 0])) =
      .error .truncatedFixed32 ∧
    decode_fields (encodeRawFields [] ++ (encode_tag 1 1 ++ [0, 0])) =
      .error .truncatedFixed64 ∧
    decode_fields
        (encodeRawFields [] ++ (encode_tag 1 2 ++ encode_varint 10 ++ [0, 0])) =
      .error .truncatedLengthDelimited ∧
    decode_fields
        (encodeRawFields [(4, 0, RawValue.vint 3), (99, 0, RawValue.vint 1)]) =
      .ok [(4, 0, RawValue.vint 3), (99, 0, RawValue.vint 1)] :=
  ⟨decode_failure_taxonomy.1 [0x80, 0x80] 0 (by decide) (by norm_num),
    decode_failure_taxonomy.2.1
      [0x80, 0x80, 0x80, 0x80, 0x80, 0x80, 0x80, 0x80, 0x80, 0x80] 0
      (by decide) (by norm_num),
    decode_failure_taxonomy.2.2.1 [] 1 3 [] (by simp) (by norm_num)
      (by norm_num) (by norm_num) (by norm_num) (by norm_num) (by norm_num),
    decode_failure_taxonomy.2.2.2.1 [] 1 [0, 0] (by simp) (by norm_num)
      (by norm_num),
    decode_failure_taxonomy.2.2.2.2.1 [] 1 [0, 0] (by simp) (by norm_num)
      (by norm_num),
    decode_failure_taxonomy.2.2.2.2.2.1 [] 1 10 [0, 0] (by simp) (by norm_num)
      (by norm_num) (by norm_num),
    decode_failure_taxonomy.2.2.2.2.2.2
      [(4, 0, RawValue.vint 3), (99, 0, RawValue.vint 1)]
      (by
        intro fld hf
        simp only [List.mem_cons, List.mem_singleton] at hf
        rcases hf with hf | hf | hf
        · subst hf
          exact .vint (by norm_num) (by norm_num)
        · subst hf
          exact .vint (by norm_num) (by norm_num)
        · simp at hf)⟩

end Joule
